import Mathlib

/-!
# Verification of the Dijkstra-Path-Finder grid/graph core

A shallow embedding of `DijkstraPF.go`.  The grid is a `List (List Cat)`
(`gridMatrix[y][x]`, as in the source); every Go slice access is modelled
by an `Option`-valued checked access, so `none` models a Go out-of-range
panic (and, for the fuel-bounded path-marking walk, divergence of the
source's unbounded `for i > 0` loop).  Machine integers are `Nat`/`Int`;
the only negative value in the source is the `-1` sentinel for
`start_node`/`goal_node` (and the `-1` "not found" result), so those are
`Int` and everything else is `Nat`.  Coordinates passed to the edit
operations are the already-validated non-negative integers the spec's
external collaborator supplies, hence `Nat`.
-/

set_option maxRecDepth 10000

namespace DijkstraPF

/-- Go cell categories are plain strings: `" "`, `"#"`, `"s"`, `"g"`, `"."`. -/
abbrev Cat := String

/-- `type node struct { category string; set_index int }` -/
structure node where
  category : Cat
  set_index : Nat
deriving DecidableEq, Repr

/-- `type Graph struct { ... }` (all fields, in source order). -/
structure Graph where
  set : List node
  adjecencyList : List (List node)
  start_node : Int
  goal_node : Int
  dist : List Nat
  prev : List Nat
  gridMatrix : List (List Cat)
  grid_width : Nat
  grid_height : Nat
deriving DecidableEq, Repr

/-- Checked read `gridMatrix[y][x]`; `none` is a Go index-out-of-range panic. -/
def getCell (g : List (List Cat)) (y x : Nat) : Option Cat :=
  (g.get? y).bind fun row => row.get? x

/-- Checked write `gridMatrix[y][x] = v`. -/
def setCell (g : List (List Cat)) (y x : Nat) (v : Cat) : Option (List (List Cat)) :=
  match g.get? y with
  | none => none
  | some row => if x < row.length then some (g.set y (row.set x v)) else none

/-- Checked write `l[i] = v` for a Go slice. -/
def setL {α : Type} (l : List α) (i : Nat) (v : α) : Option (List α) :=
  if i < l.length then some (l.set i v) else none

/-- Checked read `l[i]` at a Go `int` index (negative index also panics). -/
def getI {α : Type} (l : List α) (i : Int) : Option α :=
  if i < 0 then none else l.get? i.toNat

/-- Checked write `l[i] = v` at a Go `int` index. -/
def setI {α : Type} (l : List α) (i : Int) (v : α) : Option (List α) :=
  if i < 0 then none else setL l i.toNat v

/-- One `if category != "#" { neighbors[neighbor_index] = node{...}; neighbor_index++ }
else { number_of_neighboring_walls++ }` block of `fillAdjecencyList`:
reads the cell at `(y, x)` and either appends `node{category, idx}` or counts a wall.
The accumulator is `(written neighbors, number_of_neighboring_walls)`. -/
def probe (grid : List (List Cat)) (y x idx : Nat) (acc : List node × Nat) :
    Option (List node × Nat) := do
  let c ← getCell grid y x
  if c = "#" then pure (acc.1, acc.2 + 1) else pure (acc.1 ++ [⟨c, idx⟩], acc.2)

/-- The per-cell neighbor computation of `fillAdjecencyList` (the big branch at
lines 225–442 of `DijkstraPF.go`), for the cell at `(y, x)` of a grid of height `h`.
The source writes into a length-5 slice and truncates with
`neighbors[:k - number_of_neighboring_walls]`; since each of the `k` probes of a
branch either writes one entry or increments the wall counter, that truncation
keeps exactly the written prefix, which is what the accumulator holds.
Note the source's hardcoded `x == 4` / `y == 4` edge tests, and the bottom-edge
branch that reads the cell left of the node but stores the index `y*h + x + 1`
of the cell to its right (lines 387–389). -/
def neighborsAt (grid : List (List Cat)) (h y x : Nat) : Option (List node) := do
  let c ← getCell grid y x
  if c = "#" then
    pure []                                                -- no neighbors if current node is a wall
  else if x = 0 then do
    let a ← probe grid y (x+1) (y*h + x + 1) ([], 0)       -- right of node
    if y = 0 then do                                       -- top left corner
      let a ← probe grid (y+1) x ((y+1)*h + x) a           -- below node
      pure (a.1.take (2 - a.2))
    else if y = 4 then do                                  -- bottom left corner
      let a ← probe grid (y-1) x ((y-1)*h + x) a           -- above node
      pure (a.1.take (2 - a.2))
    else do                                                -- left grid edge
      let a ← probe grid (y+1) x ((y+1)*h + x) a           -- below node
      let a ← probe grid (y-1) x ((y-1)*h + x) a           -- above node
      pure (a.1.take (3 - a.2))
  else if x = 4 then do
    let a ← probe grid y (x-1) (y*h + x - 1) ([], 0)       -- left of node
    if y = 0 then do                                       -- top right corner
      let a ← probe grid (y+1) x ((y+1)*h + x) a           -- below node
      pure (a.1.take (2 - a.2))
    else if y = 4 then do                                  -- bottom right corner
      let a ← probe grid (y-1) x ((y-1)*h + x) a           -- above node
      pure (a.1.take (2 - a.2))
    else do                                                -- right grid edge
      let a ← probe grid (y+1) x ((y+1)*h + x) a           -- below node
      let a ← probe grid (y-1) x ((y-1)*h + x) a           -- above node
      pure (a.1.take (3 - a.2))
  else if y = 0 then do                                    -- top grid edge
    let a ← probe grid (y+1) x ((y+1)*h + x) ([], 0)       -- below node
    let a ← probe grid y (x-1) (y*h + x - 1) a             -- left of node
    let a ← probe grid y (x+1) (y*h + x + 1) a             -- right of node
    pure (a.1.take (3 - a.2))
  else if y = 4 then do                                    -- bottom edge
    let a ← probe grid (y-1) x ((y-1)*h + x) ([], 0)       -- above node
    let a ← probe grid y (x-1) (y*h + x + 1) a             -- "left of node": reads (y, x-1) but stores index y*h+x+1, as the source does
    let a ← probe grid y (x+1) (y*h + x + 1) a             -- right of node
    pure (a.1.take (3 - a.2))
  else do                                                  -- non edge node
    let a ← probe grid (y-1) x ((y-1)*h + x) ([], 0)       -- above node
    let a ← probe grid y (x-1) (y*h + x - 1) a             -- left of node
    let a ← probe grid y (x+1) (y*h + x + 1) a             -- right of node
    let a ← probe grid (y+1) x ((y+1)*h + x) a             -- below node
    pure (a.1.take (4 - a.2))

/-- The part of the `Graph` state `fillAdjecencyList` mutates. -/
structure BuildState where
  set : List node
  adjecencyList : List (List node)
  start_node : Int
  goal_node : Int
deriving DecidableEq, Repr

/-- One iteration of the `fillAdjecencyList` double loop, for the cell `(y, x)`:
`set[y*h+x] = node{category, y*h+x}`, the `switch` updating `start_node`/`goal_node`
to `list_idx = y*w + x`, and `adjecencyList[list_idx] = neighbors`. -/
def fillCell (grid : List (List Cat)) (w h : Nat) (st : BuildState) (yx : Nat × Nat) :
    Option BuildState := do
  let category ← getCell grid yx.1 yx.2
  let set_index := yx.1 * h + yx.2
  let set' ← setL st.set set_index ⟨category, set_index⟩
  let list_idx := yx.1 * w + yx.2
  let start' := if category = "s" then (list_idx : Int) else st.start_node
  let goal' := if category = "g" then (list_idx : Int) else st.goal_node
  let nbrs ← neighborsAt grid h yx.1 yx.2
  let adj' ← setL st.adjecencyList list_idx nbrs
  pure ⟨set', adj', start', goal'⟩

/-- The cells `(y, x)` in the order the `for y { for x { ... } }` loops visit them. -/
def gridCells (w h : Nat) : List (Nat × Nat) :=
  (List.range h).flatMap fun y => (List.range w).map fun x => (y, x)

/-- `func (graph *Graph) fillAdjecencyList()` (lines 208–447). -/
def fillAdjecencyList (g : Graph) : Option Graph := do
  let st ← (gridCells g.grid_width g.grid_height).foldlM
    (fillCell g.gridMatrix g.grid_width g.grid_height)
    ⟨g.set, g.adjecencyList, g.start_node, g.goal_node⟩
  pure { g with set := st.set, adjecencyList := st.adjecencyList,
                start_node := st.start_node, goal_node := st.goal_node }

/-- The all-blank `h × w` grid `NewGrid` builds. -/
def blankGrid (w h : Nat) : List (List Cat) :=
  List.replicate h (List.replicate w " ")

/-- `func (graph *Graph) NewGrid()`: reset `gridMatrix` to blank, then rebuild. -/
def NewGrid (g : Graph) : Option Graph :=
  fillAdjecencyList { g with gridMatrix := blankGrid g.grid_width g.grid_height }

/-- `func NewGraph(width, height int) Graph`: zero-valued slices of length
`width*height` (`make` zero-fills; a zero `node` is `{"", 0}`, a nil inner slice
is `[]`), sentinels `-1`, then `NewGrid()`. -/
def NewGraph (width height : Nat) : Option Graph :=
  NewGrid
    { set := List.replicate (width * height) ⟨"", 0⟩
      adjecencyList := List.replicate (width * height) []
      start_node := -1
      goal_node := -1
      dist := List.replicate (width * height) 0
      prev := List.replicate (width * height) 0
      gridMatrix := []
      grid_width := width
      grid_height := height }

/-- `func (graph *Graph) MakeWallBlock(x, y int)`. -/
def MakeWallBlock (g : Graph) (x y : Nat) : Option Graph := do
  let grid ← setCell g.gridMatrix y x "#"
  fillAdjecencyList { g with gridMatrix := grid }

/-- The indices of a Go loop `for i := a; i <= b; i++` (empty when `a > b`). -/
def natRange (a b : Nat) : List Nat := List.range' a (b + 1 - a)

/-- `func (graph *Graph) MakeWall(x1, y1, x2, y2 int)` (lines 69–82).  The second
component of the result collects what the call prints (`fmt.Println`). -/
def MakeWall (g : Graph) (x1 y1 x2 y2 : Nat) : Option (Graph × List String) := do
  if x1 ≠ x2 ∧ y1 ≠ y2 then
    let g' ← fillAdjecencyList g
    pure (g', ["Coordinate choice does not make a line. Try again"])
  else if x1 = x2 then
    let grid ← (natRange y1 y2).foldlM (fun m i => setCell m i x1 "#") g.gridMatrix
    let g' ← fillAdjecencyList { g with gridMatrix := grid }
    pure (g', [])
  else
    let grid ← (natRange x1 x2).foldlM (fun m i => setCell m y1 i "#") g.gridMatrix
    let g' ← fillAdjecencyList { g with gridMatrix := grid }
    pure (g', [])

/-- `func (graph *Graph) PlaceStart(x, y int)`. -/
def PlaceStart (g : Graph) (x y : Nat) : Option Graph := do
  let grid ← setCell g.gridMatrix y x "s"
  fillAdjecencyList { g with gridMatrix := grid }

/-- `func (graph *Graph) PlaceGoal(x, y int)`. -/
def PlaceGoal (g : Graph) (x y : Nat) : Option Graph := do
  let grid ← setCell g.gridMatrix y x "g"
  fillAdjecencyList { g with gridMatrix := grid }

/-- The linear minimum scan of `PathFinder` (lines 468–476): starting from
`min := inf, min_index := 0`, visit the unvisited nodes in order and keep the
first index realising the least `dist`. Returns `(min_index, min)`. -/
def findMin (dist : List Nat) (unvisited : List node) (inf : Nat) : Option (Nat × Nat) :=
  unvisited.enum.foldlM
    (fun (mi : Nat × Nat) p => do
      let d ← dist.get? p.2.set_index
      if d < mi.2 then pure (p.1, d) else pure mi)
    (0, inf)

/-- The relaxation loop of `PathFinder` (lines 489–497) over the neighbors of
`curr`, on the state `(dist, prev)`. -/
def relax (curr : node) (nbrs : List node) (dp : List Nat × List Nat) :
    Option (List Nat × List Nat) :=
  nbrs.foldlM
    (fun dp nbr => do
      let dc ← dp.1.get? curr.set_index
      let alt := dc + 1
      let dn ← dp.1.get? nbr.set_index
      if alt < dn then do
        let dist' ← setL dp.1 nbr.set_index alt
        let prev' ← setL dp.2 nbr.set_index curr.set_index
        pure (dist', prev')
      else pure dp)
    dp

/-- The `for len(unvisitedNodes) > 0` loop of `PathFinder` (lines 465–498).
Each iteration removes one node, so calling with `fuel = unvisited.length`
runs the loop exactly as the source does; `fuel` can only run out with a
non-empty queue if the call was made with too little fuel, which is mapped
to `none`. -/
def dijkstraLoop (adj : List (List node)) (inf : Nat) :
    Nat → List node → List Nat → List Nat → Option (List Nat × List Nat)
  | 0, unvisited, dist, prev =>
    if unvisited.length > 0 then none else some (dist, prev)
  | fuel+1, unvisited, dist, prev =>
    if unvisited.length > 0 then do
      let mm ← findMin dist unvisited inf
      let curr ← unvisited.get? mm.1
      let unvisited' := unvisited.eraseIdx mm.1          -- remove current node from queue
      let dc ← dist.get? curr.set_index
      if dc = inf then pure (dist, prev)                 -- break if unreachable
      else do
        let nbrs ← adj.get? curr.set_index
        let dp ← relax curr nbrs (dist, prev)
        dijkstraLoop adj inf fuel unvisited' dp.1 dp.2
    else pure (dist, prev)

/-- The path-marking walk of `PathFinder` (lines 501–507):
`i := prev[goal]; for i > 0 { x := i%5; y := (i-x)/5; grid[y][x] = "."; i = prev[i] }`.
The source loop is unbounded and diverges on a `prev` cycle; since `prev` holds
values `< prev.length`, any chain that terminates does so within `prev.length + 1`
steps, so running with that fuel is exact and `none` models divergence. -/
def markLoop (prev : List Nat) : Nat → Nat → List (List Cat) → Option (List (List Cat))
  | 0, i, grid => if i > 0 then none else some grid
  | fuel+1, i, grid =>
    if i > 0 then do
      let x := i % 5
      let y := (i - x) / 5
      let grid' ← setCell grid y x "."
      let i' ← prev.get? i
      markLoop prev fuel i' grid'
    else some grid

/-- One iteration of the initialisation loop of `PathFinder` (lines 457–460):
`unvisitedNodes[index] = node; dist[index] = inf`. -/
def initStep (inf : Nat) (ud : List node × List Nat) (p : Nat × node) :
    Option (List node × List Nat) := do
  let u' ← setL ud.1 p.1 p.2
  let d' ← setL ud.2 p.1 inf
  pure (u', d')

/-- `func (graph *Graph) PathFinder() int` (lines 452–514).  Returns the updated
graph (its `dist`, `prev` and `gridMatrix` are mutated in place in the source)
together with the returned shortest distance (`-1` when not found). -/
def PathFinder (g : Graph) : Option (Graph × Int) := do
  let inf := g.set.length
  let init ← g.set.enum.foldlM (initStep inf)
    (List.replicate g.adjecencyList.length ⟨"", 0⟩, g.dist)
  let unvisited := init.1
  let dist ← setI init.2 g.start_node 0                  -- dist[start] = 0
  let dp ← dijkstraLoop g.adjecencyList inf unvisited.length unvisited dist g.prev
  let i0 ← getI dp.2 g.goal_node
  let grid ← markLoop dp.2 (dp.2.length + 1) i0 g.gridMatrix
  let dg ← getI dp.1 g.goal_node
  let res : Int := if dg ≠ inf then (dg : Int) else -1
  pure ({ g with dist := dp.1, prev := dp.2, gridMatrix := grid }, res)

/-- A graph over a given 5×5 grid, in the state the editing loop leaves it in:
the `NewGraph(5, 5)` field values with `gridMatrix` replaced by the grid, then
one rebuild (every edit operation ends with `fillAdjecencyList`, so this is the
state of any freshly edited graph whose grid contains its markers). -/
def graphOfGrid (grid : List (List Cat)) : Option Graph :=
  fillAdjecencyList
    { set := List.replicate 25 ⟨"", 0⟩
      adjecencyList := List.replicate 25 []
      start_node := -1
      goal_node := -1
      dist := List.replicate 25 0
      prev := List.replicate 25 0
      gridMatrix := grid
      grid_width := 5
      grid_height := 5 }

/-- `(y, x)` positions that are 4-directional (axis-aligned, distance-1) neighbors. -/
def Adj4 (p q : Nat × Nat) : Prop :=
  (q.1 = p.1 ∧ (q.2 = p.2 + 1 ∨ q.2 + 1 = p.2)) ∨
  (q.2 = p.2 ∧ (q.1 = p.1 + 1 ∨ q.1 + 1 = p.1))

/-- The position exists on the grid and does not hold a wall. -/
def openCell (grid : List (List Cat)) (p : Nat × Nat) : Prop :=
  ∃ c, getCell grid p.1 p.2 = some c ∧ c ≠ "#"

/-- One non-wall 4-directional neighbor step on the grid. -/
def GridStep (grid : List (List Cat)) (p q : Nat × Nat) : Prop :=
  openCell grid p ∧ openCell grid q ∧ Adj4 p q

/-- A sequence of non-wall 4-directional neighbor steps connects `p` to `q`. -/
def GridReach (grid : List (List Cat)) (p q : Nat × Nat) : Prop :=
  Relation.ReflTransGen (GridStep grid) p q

/-- The grid is a well-formed 5×5 matrix. -/
def WF5 (grid : List (List Cat)) : Prop :=
  grid.length = 5 ∧ ∀ row ∈ grid, row.length = 5

instance (p q : Nat × Nat) : Decidable (Adj4 p q) := by
  unfold Adj4; infer_instance

instance (grid : List (List Cat)) (p : Nat × Nat) : Decidable (openCell grid p) := by
  unfold openCell
  rcases getCell grid p.1 p.2 with _ | c
  · exact isFalse (by simp)
  · by_cases hc : c = "#"
    · exact isFalse (by simp [hc])
    · exact isTrue ⟨c, rfl, hc⟩

instance (grid : List (List Cat)) : Decidable (WF5 grid) := by
  unfold WF5; infer_instance

/-- Linear index of the cell at position `p = (y, x)` on a 5×5 grid. -/
def cellIdx (p : Nat × Nat) : Nat := p.1 * 5 + p.2

/-- An adjacency entry of `adj[u]` carries the index `v`: one directed edge of
the structure `fillAdjecencyList` builds. -/
def codeStep (adj : List (List node)) (u v : Nat) : Prop :=
  ∃ l, adj.get? u = some l ∧ ∃ nd ∈ l, nd.set_index = v

/-- Reachability along the edges of the built adjacency structure. -/
def codeReach (adj : List (List node)) (s v : Nat) : Prop :=
  Relation.ReflTransGen (codeStep adj) s v

/-- The adjacency list of a 5×5 graph has 25 rows and every entry's index is
again below 25. -/
def AdjOK (adj : List (List node)) : Prop :=
  adj.length = 25 ∧ ∀ u l, adj.get? u = some l → ∀ nd ∈ l, nd.set_index < 25

/-- An adjacency entry points to an in-bounds 4-directional neighbor of `(y, x)`
(possibly a wall, because of the bottom-edge index bug). -/
def nbrOK (y x : Nat) (nd : node) : Prop :=
  ∃ q : Nat × Nat, q.1 < 5 ∧ q.2 < 5 ∧ nd.set_index = q.1 * 5 + q.2 ∧ Adj4 (y, x) q

/-- Invariant of the search state `(dist, prev)` during `PathFinder` on a 5×5
graph with start index `s` (so `inf = 25`): lengths are 25; distances never
exceed the sentinel; a node with a distance below the sentinel is reachable
from the start along the built adjacency; a node still at the sentinel has its
(zero-initialised) predecessor untouched; predecessor entries are below 25; and
a nonzero predecessor entry was written by a relaxation, so its distance is
strictly below its successor's. -/
def SearchInv (adj : List (List node)) (s : Nat) (dist prev : List Nat) : Prop :=
  dist.length = 25 ∧ prev.length = 25 ∧
  (∀ i d, dist.get? i = some d → d ≤ 25) ∧
  (∀ i d, dist.get? i = some d → d < 25 → codeReach adj s i) ∧
  (∀ i d, dist.get? i = some d → d = 25 → prev.get? i = some 0) ∧
  (∀ v p, prev.get? v = some p → p < 25) ∧
  (∀ v p, prev.get? v = some p → p ≠ 0 →
    ∃ dv dp, dist.get? v = some dv ∧ dist.get? p = some dp ∧ dp < dv)

/-- The concrete graph value `NewGraph(5, 5)` produces (see `g5_eq`). -/
def g5 : Graph :=
  { set := [{ category := " ", set_index := 0 },
            { category := " ", set_index := 1 },
            { category := " ", set_index := 2 },
            { category := " ", set_index := 3 },
            { category := " ", set_index := 4 },
            { category := " ", set_index := 5 },
            { category := " ", set_index := 6 },
            { category := " ", set_index := 7 },
            { category := " ", set_index := 8 },
            { category := " ", set_index := 9 },
            { category := " ", set_index := 10 },
            { category := " ", set_index := 11 },
            { category := " ", set_index := 12 },
            { category := " ", set_index := 13 },
            { category := " ", set_index := 14 },
            { category := " ", set_index := 15 },
            { category := " ", set_index := 16 },
            { category := " ", set_index := 17 },
            { category := " ", set_index := 18 },
            { category := " ", set_index := 19 },
            { category := " ", set_index := 20 },
            { category := " ", set_index := 21 },
            { category := " ", set_index := 22 },
            { category := " ", set_index := 23 },
            { category := " ", set_index := 24 }],
    adjecencyList := [[{ category := " ", set_index := 1 }, { category := " ", set_index := 5 }],
                      [{ category := " ", set_index := 6 },
                       { category := " ", set_index := 0 },
                       { category := " ", set_index := 2 }],
                      [{ category := " ", set_index := 7 },
                       { category := " ", set_index := 1 },
                       { category := " ", set_index := 3 }],
                      [{ category := " ", set_index := 8 },
                       { category := " ", set_index := 2 },
                       { category := " ", set_index := 4 }],
                      [{ category := " ", set_index := 3 }, { category := " ", set_index := 9 }],
                      [{ category := " ", set_index := 6 },
                       { category := " ", set_index := 10 },
                       { category := " ", set_index := 0 }],
                      [{ category := " ", set_index := 1 },
                       { category := " ", set_index := 5 },
                       { category := " ", set_index := 7 },
                       { category := " ", set_index := 11 }],
                      [{ category := " ", set_index := 2 },
                       { category := " ", set_index := 6 },
                       { category := " ", set_index := 8 },
                       { category := " ", set_index := 12 }],
                      [{ category := " ", set_index := 3 },
                       { category := " ", set_index := 7 },
                       { category := " ", set_index := 9 },
                       { category := " ", set_index := 13 }],
                      [{ category := " ", set_index := 8 },
                       { category := " ", set_index := 14 },
                       { category := " ", set_index := 4 }],
                      [{ category := " ", set_index := 11 },
                       { category := " ", set_index := 15 },
                       { category := " ", set_index := 5 }],
                      [{ category := " ", set_index := 6 },
                       { category := " ", set_index := 10 },
                       { category := " ", set_index := 12 },
                       { category := " ", set_index := 16 }],
                      [{ category := " ", set_index := 7 },
                       { category := " ", set_index := 11 },
                       { category := " ", set_index := 13 },
                       { category := " ", set_index := 17 }],
                      [{ category := " ", set_index := 8 },
                       { category := " ", set_index := 12 },
                       { category := " ", set_index := 14 },
                       { category := " ", set_index := 18 }],
                      [{ category := " ", set_index := 13 },
                       { category := " ", set_index := 19 },
                       { category := " ", set_index := 9 }],
                      [{ category := " ", set_index := 16 },
                       { category := " ", set_index := 20 },
                       { category := " ", set_index := 10 }],
                      [{ category := " ", set_index := 11 },
                       { category := " ", set_index := 15 },
                       { category := " ", set_index := 17 },
                       { category := " ", set_index := 21 }],
                      [{ category := " ", set_index := 12 },
                       { category := " ", set_index := 16 },
                       { category := " ", set_index := 18 },
                       { category := " ", set_index := 22 }],
                      [{ category := " ", set_index := 13 },
                       { category := " ", set_index := 17 },
                       { category := " ", set_index := 19 },
                       { category := " ", set_index := 23 }],
                      [{ category := " ", set_index := 18 },
                       { category := " ", set_index := 24 },
                       { category := " ", set_index := 14 }],
                      [{ category := " ", set_index := 21 }, { category := " ", set_index := 15 }],
                      [{ category := " ", set_index := 16 },
                       { category := " ", set_index := 22 },
                       { category := " ", set_index := 22 }],
                      [{ category := " ", set_index := 17 },
                       { category := " ", set_index := 23 },
                       { category := " ", set_index := 23 }],
                      [{ category := " ", set_index := 18 },
                       { category := " ", set_index := 24 },
                       { category := " ", set_index := 24 }],
                      [{ category := " ", set_index := 23 }, { category := " ", set_index := 19 }]],
    start_node := -1,
    goal_node := -1,
    dist := [0, 0, 0, 0, 0, 0, 0, 0, 0, 0, 0, 0, 0, 0, 0, 0, 0, 0, 0, 0, 0, 0, 0, 0, 0],
    prev := [0, 0, 0, 0, 0, 0, 0, 0, 0, 0, 0, 0, 0, 0, 0, 0, 0, 0, 0, 0, 0, 0, 0, 0, 0],
    gridMatrix := [[" ", " ", " ", " ", " "],
                   [" ", " ", " ", " ", " "],
                   [" ", " ", " ", " ", " "],
                   [" ", " ", " ", " ", " "],
                   [" ", " ", " ", " ", " "]],
    grid_width := 5,
    grid_height := 5 }

/-- A 5×5 grid with a start and a goal marker and no walls. -/
def grid5sg : List (List Cat) :=
  [["s", " ", " ", " ", " "],
   [" ", " ", " ", " ", " "],
   [" ", " ", "g", " ", " "],
   [" ", " ", " ", " ", " "],
   [" ", " ", " ", " ", " "]]

/-- A 5×5 grid whose goal corner `(x=4, y=4)` is sealed off by walls at
`(x=4, y=3)` and `(x=3, y=4)`. -/
def c5grid : List (List Cat) :=
  [["s", " ", " ", " ", " "],
   [" ", " ", " ", " ", " "],
   [" ", " ", " ", " ", " "],
   [" ", " ", " ", " ", "#"],
   [" ", " ", " ", "#", "g"]]

end DijkstraPF

namespace DijkstraPF

/-- C1.  The claim says adjacency is symmetric after every rebuild.  It is not:
on the blank 5×5 grid of `NewGraph 5 5`, the non-wall 4-neighbor cells
`(x=0, y=4)` (index 20) and `(x=1, y=4)` (index 21) get asymmetric lists —
21 appears in 20's adjacency list, but 20 appears in no entry of 21's list
(which instead holds index 22 twice, because the bottom-edge branch of
`fillAdjecencyList` stores the right neighbor's index for the left neighbor). -/
theorem c1_adjacency_symmetry_fails :
    ∃ g : Graph, NewGraph 5 5 = some g ∧
      Adj4 (4, 0) (4, 1) ∧
      getCell g.gridMatrix 4 0 = some " " ∧ getCell g.gridMatrix 4 1 = some " " ∧
      (∃ l20, g.adjecencyList.get? 20 = some l20 ∧ ∃ nd ∈ l20, nd.set_index = 21) ∧
      (∃ l21, g.adjecencyList.get? 21 = some l21 ∧ ∀ nd ∈ l21, nd.set_index ≠ 20) :=
  ⟨_, rfl, by decide, by decide, by decide, ⟨_, rfl, by decide⟩, ⟨_, rfl, by decide⟩⟩

/-- C2.  The claim says no adjacency entry ever references a wall cell.  After
placing a wall block at `(x=2, y=4)` (index 22) on the blank 5×5 grid, the
rebuilt adjacency list of cell `(x=1, y=4)` (index 21) contains the wall's
index 22: the bottom-edge branch reads the (open) left neighbor but stores the
right neighbor's index. -/
theorem c2_wall_isolation_fails :
    ∃ g : Graph, ((NewGraph 5 5).bind fun g0 => MakeWallBlock g0 2 4) = some g ∧
      getCell g.gridMatrix 4 2 = some "#" ∧
      ∃ l21, g.adjecencyList.get? 21 = some l21 ∧ ∃ nd ∈ l21, nd.set_index = 22 :=
  ⟨_, rfl, by decide, _, rfl, by decide⟩

/-- C3.  The claim says any two 4-adjacent cells with start on one and goal on
the other, and no walls, give distance 1.  With start `(x=1, y=4)` and goal
`(x=0, y=4)` — 4-adjacent, on an otherwise blank grid — `PathFinder` returns 3,
because the buggy bottom-edge branch never links a bottom-edge cell to its left
neighbor. -/
theorem c3_adjacent_distance_not_one :
    Adj4 (4, 1) (4, 0) ∧
    ((do
      let g ← NewGraph 5 5
      let g ← PlaceStart g 1 4
      let g ← PlaceGoal g 0 4
      PathFinder g : Option (Graph × Int))).map Prod.snd = some 3 :=
  ⟨by decide, by decide⟩

/-- C4.  The claim says the start cell is never overwritten with a path marker.
With start `(x=1, y=0)` (index 1) and goal `(x=2, y=0)` on a blank grid, the
goal is found at distance 1, and the reconstruction walk
`i := prev[goal]; for i > 0 { mark i; i = prev[i] }` marks the start cell
itself (it only stops at index 0, so any start with a positive index is
overwritten with `"."`). -/
theorem c4_start_cell_overwritten :
    ∃ g : Graph, ((do
      let g0 ← NewGraph 5 5
      let g1 ← PlaceStart g0 1 0
      let g2 ← PlaceGoal g1 2 0
      PathFinder g2 : Option (Graph × Int))) = some (g, 1) ∧
      getCell g.gridMatrix 0 1 = some "." :=
  ⟨_, rfl, by decide⟩

/-- C6 (counterexample).  The claim says the reconstructed path routes across
row 4 and up column 4; a path up column 4 would mark `(x=4, y=1)` with `"."`,
but after the scenario that cell is still blank (the code's path goes up
column 2 instead, as the repository's own test expects). -/
theorem c6_route_not_column4 :
    ∃ g : Graph, ((do
      let g0 ← NewGraph 5 5
      let g1 ← PlaceStart g0 0 0
      let g2 ← PlaceGoal g1 4 0
      let gw ← MakeWall g2 1 0 1 3
      PathFinder gw.1 : Option (Graph × Int))) = some (g, 12) ∧
      getCell g.gridMatrix 1 4 = some " " :=
  ⟨_, rfl, by decide⟩

/-- C6 (amended).  On the 5×5 grid with start `(0,0)`, goal `(4,0)` and the wall
segment from `(1,0)` to `(1,3)`, `PathFinder` returns shortest distance 12 and
the reconstructed path routes down column 0, across row 4 to column 2, up
column 2, and along row 0 through `(3,0)` to the goal — exactly the grid the
repository's test `testPF.go` expects. -/
theorem c6_scenario_distance12_route_column2 :
    ((do
      let g0 ← NewGraph 5 5
      let g1 ← PlaceStart g0 0 0
      let g2 ← PlaceGoal g1 4 0
      let gw ← MakeWall g2 1 0 1 3
      PathFinder gw.1 : Option (Graph × Int))).map (fun p => (p.2, p.1.gridMatrix)) =
    some (12, [["s", "#", ".", ".", "g"],
               [".", "#", ".", " ", " "],
               [".", "#", ".", " ", " "],
               [".", "#", ".", " ", " "],
               [".", ".", ".", " ", " "]]) := by decide

set_option maxHeartbeats 2000000 in
/-- C7.  The claim says per-run search state is fresh, so no invocation depends
on an earlier one's state, and in particular `prev` holds no leftovers.  But
`prev` is allocated once in `NewGraph` and never cleared: after a first search
(start `(0,0)`, goal `(2,2)`), clearing the grid, re-placing start and goal and
walling the goal in, the graph entering the second search still has
`prev[12] = 7` left over from the first run, and the second `PathFinder` —
whose goal is unreachable and which returns `-1` — still walks that stale chain
and paints `"."` over cell `(x=2, y=1)`, which before the call held a wall
`"#"`. -/
theorem c7_prev_not_fresh_between_runs :
    ∃ gBefore g2 : Graph, ((do
      let g ← NewGraph 5 5
      let g ← PlaceStart g 0 0
      let g ← PlaceGoal g 2 2
      let p1 ← PathFinder g
      let g ← NewGrid p1.1
      let g ← PlaceStart g 0 0
      let g ← PlaceGoal g 2 2
      let g ← MakeWallBlock g 2 1
      let g ← MakeWallBlock g 1 2
      let g ← MakeWallBlock g 3 2
      MakeWallBlock g 2 3 : Option Graph)) = some gBefore ∧
      gBefore.prev.get? 12 = some 7 ∧
      getCell gBefore.gridMatrix 1 2 = some "#" ∧
      PathFinder gBefore = some (g2, -1) ∧
      getCell g2.gridMatrix 1 2 = some "." :=
  ⟨_, _, rfl, by decide, by decide, rfl, by decide⟩

end DijkstraPF

namespace DijkstraPF

/-- `g5` is exactly the graph `NewGraph(5, 5)` builds. -/
theorem g5_eq : NewGraph 5 5 = some g5 := by decide

/-- C8.  A `MakeWall` call with non-colinear endpoints (`x1 ≠ x2` and `y1 ≠ y2`)
reports the error, skips the edit, and leaves a rebuilt graph unchanged (in
particular its grid matrix and its adjacency list): the source prints the
message and falls through to `fillAdjecencyList`, which on an already rebuilt
state (`fillAdjecencyList g = some g`) reproduces the state exactly. -/
theorem c8_nonColinear_makeWall_reports_and_skips
    (g : Graph) (x1 y1 x2 y2 : Nat) (hx : x1 ≠ x2) (hy : y1 ≠ y2)
    (hfill : fillAdjecencyList g = some g) :
    MakeWall g x1 y1 x2 y2 =
      some (g, ["Coordinate choice does not make a line. Try again"]) := by
  unfold MakeWall
  rw [if_pos ⟨hx, hy⟩, hfill]
  rfl

set_option maxHeartbeats 4000000 in
/-- Witness for C8 at the concrete rebuilt graph of `NewGraph(5, 5)`. -/
theorem c8_nonColinear_makeWall_reports_and_skips_witness :
    MakeWall g5 0 0 1 1 =
      some (g5, ["Coordinate choice does not make a line. Try again"]) :=
  c8_nonColinear_makeWall_reports_and_skips g5 0 0 1 1
    (by decide) (by decide) (by decide)

/-- C10.  A `MakeWall` call with colinear endpoints given in decreasing order
(`x1 = x2` with `y1 > y2`, or `y1 = y2` with `x1 > x2`) places no wall cells and
reports nothing: the loops `for i := y1; i <= y2` / `for i := x1; i <= x2` run
zero iterations, so a rebuilt graph is returned unchanged with no output. -/
theorem c10_decreasing_makeWall_silent_noop
    (g : Graph) (x1 y1 x2 y2 : Nat)
    (hdec : (x1 = x2 ∧ y2 < y1) ∨ (y1 = y2 ∧ x2 < x1))
    (hfill : fillAdjecencyList g = some g) :
    MakeWall g x1 y1 x2 y2 = some (g, []) := by
  unfold MakeWall
  rcases hdec with ⟨hx, hy⟩ | ⟨hy, hx⟩
  · rw [if_neg (by tauto), if_pos hx]
    have hr : natRange y1 y2 = [] := by
      unfold natRange
      have : y2 + 1 - y1 = 0 := by omega
      rw [this]
      rfl
    rw [hr]
    show (some g.gridMatrix).bind _ = _
    show (fillAdjecencyList g).bind _ = _
    rw [hfill]
    rfl
  · have hxne : ¬ x1 = x2 := by omega
    rw [if_neg (by tauto), if_neg hxne]
    have hr : natRange x1 x2 = [] := by
      unfold natRange
      have : x2 + 1 - x1 = 0 := by omega
      rw [this]
      rfl
    rw [hr]
    show (some g.gridMatrix).bind _ = _
    show (fillAdjecencyList g).bind _ = _
    rw [hfill]
    rfl

set_option maxHeartbeats 4000000 in
/-- Witness for C10 at the concrete rebuilt graph of `NewGraph(5, 5)`. -/
theorem c10_decreasing_makeWall_silent_noop_witness :
    MakeWall g5 2 3 2 1 = some (g5, []) :=
  c10_decreasing_makeWall_silent_noop g5 2 3 2 1
    (Or.inl ⟨rfl, by omega⟩) (by decide)

set_option maxHeartbeats 4000000 in
/-- C9 (counterexample).  Both halves of the claim fail: `NewGraph 0 5` has
dimensions other than 5×5, yet its rebuild performs no out-of-range access at
all (the cell loops are empty, so construction succeeds); and on a graph
created with width = height = 5 but no start/goal markers, `PathFinder` indexes
`dist[-1]` (`start_node` is the sentinel `-1`), an out-of-range access. -/
theorem c9_inbounds_claim_fails :
    (∃ g : Graph, NewGraph 0 5 = some g) ∧
    ((NewGraph 5 5).bind PathFinder) = none :=
  ⟨⟨_, rfl⟩, by decide⟩

end DijkstraPF

namespace DijkstraPF

theorem get?_some_of_lt {α : Type} {l : List α} {i : Nat} (h : i < l.length) :
    ∃ a, l.get? i = some a := by
  cases hg : l.get? i with
  | none => exact absurd (List.get?_eq_none.mp hg) (by omega)
  | some a => exact ⟨a, rfl⟩

theorem lt_of_get?_some {α : Type} {l : List α} {i : Nat} {a : α} (h : l.get? i = some a) :
    i < l.length := by
  rcases List.get?_eq_some.mp h with ⟨hlt, _⟩
  exact hlt

theorem setL_ok {α : Type} {l : List α} {i : Nat} (h : i < l.length) (v : α) :
    setL l i v = some (l.set i v) := by
  simp [setL, h]

theorem get?_set_self {α : Type} {l : List α} {i : Nat} (h : i < l.length) (v : α) :
    (l.set i v).get? i = some v := by
  rw [List.get?_set_eq]
  rcases get?_some_of_lt h with ⟨a, ha⟩
  rw [ha]
  rfl

/-- A well-formed 5×5 grid has a cell at every in-bounds position. -/
theorem WF5_getCell {grid : List (List Cat)} (hwf : WF5 grid) {y x : Nat}
    (hy : y < 5) (hx : x < 5) : ∃ c, getCell grid y x = some c := by
  obtain ⟨hlen, hrows⟩ := hwf
  obtain ⟨row, hrow⟩ := get?_some_of_lt (l := grid) (i := y) (by omega)
  have hrl : row.length = 5 := hrows row (List.get?_mem hrow)
  obtain ⟨c, hc⟩ := get?_some_of_lt (l := row) (i := x) (by omega)
  refine ⟨c, ?_⟩
  unfold getCell
  rw [hrow]
  simpa using hc

/-- An in-bounds `setCell` on a well-formed 5×5 grid succeeds and preserves
well-formedness. -/
theorem setCell_ok {grid : List (List Cat)} (hwf : WF5 grid) {y x : Nat}
    (hy : y < 5) (hx : x < 5) (v : Cat) :
    ∃ grid', setCell grid y x v = some grid' ∧ WF5 grid' := by
  obtain ⟨hlen, hrows⟩ := hwf
  obtain ⟨row, hrow⟩ := get?_some_of_lt (l := grid) (i := y) (by omega)
  have hrl : row.length = 5 := hrows row (List.get?_mem hrow)
  refine ⟨grid.set y (row.set x v), ?_, ?_, ?_⟩
  · simp only [setCell, hrow]
    rw [if_pos (show x < row.length by omega)]
  · simp [hlen]
  · intro r hr
    rcases List.mem_or_eq_of_mem_set hr with hr' | rfl
    · exact hrows r hr'
    · simp [hrl]

theorem probe_none {grid : List (List Cat)} {y x idx : Nat} {acc : List node × Nat}
    (hc : getCell grid y x = none) : probe grid y x idx acc = none := by
  simp [probe, hc]

theorem probe_eq {grid : List (List Cat)} {y x idx : Nat} {acc : List node × Nat} {c : Cat}
    (hc : getCell grid y x = some c) :
    probe grid y x idx acc =
      some (if c = "#" then (acc.1, acc.2 + 1) else (acc.1 ++ [⟨c, idx⟩], acc.2)) := by
  simp only [probe, hc, Option.bind_eq_bind, Option.some_bind]
  split <;> rfl

/-- A probe of an existing cell succeeds and preserves a predicate on the
accumulated entries, provided the predicate holds of the entry it may add. -/
theorem probe_ok (grid : List (List Cat)) (y x idx : Nat) (acc : List node × Nat)
    {P : node → Prop}
    (hex : ∃ c, getCell grid y x = some c)
    (hacc : ∀ nd ∈ acc.1, P nd)
    (hnew : ∀ c, getCell grid y x = some c → P ⟨c, idx⟩) :
    ∃ a', probe grid y x idx acc = some a' ∧ ∀ nd ∈ a'.1, P nd := by
  obtain ⟨c, hc⟩ := hex
  refine ⟨_, probe_eq hc, ?_⟩
  intro nd hnd
  split at hnd
  · exact hacc nd hnd
  · rcases List.mem_append.mp hnd with h | h
    · exact hacc nd h
    · simp at h
      subst h
      exact hnew c hc

/-- An `Option`-valued left fold succeeds and preserves an invariant if each
step does. -/
theorem foldlM_option_inv {α β : Type} {f : β → α → Option β} {l : List α} {P : β → Prop}
    (hstep : ∀ b a, a ∈ l → P b → ∃ b', f b a = some b' ∧ P b') :
    ∀ b0, P b0 → ∃ b', l.foldlM f b0 = some b' ∧ P b' := by
  induction l with
  | nil => exact fun b0 hb0 => ⟨b0, by simp, hb0⟩
  | cons a t ih =>
    intro b0 hb0
    obtain ⟨b1, hb1, hP1⟩ := hstep b0 a (by simp) hb0
    obtain ⟨b', hb', hP'⟩ := ih (fun b a' ha' hb => hstep b a' (by simp [ha']) hb) b1 hP1
    refine ⟨b', ?_, hP'⟩
    rw [List.foldlM_cons, hb1]
    simpa using hb'

/-- An `Option`-valued left fold fails if some list element makes the step fail
from every state. -/
theorem foldlM_option_none {α β : Type} {f : β → α → Option β} {l : List α} {a : α}
    (ha : a ∈ l) (hfail : ∀ b, f b a = none) :
    ∀ b0, l.foldlM f b0 = none := by
  induction l with
  | nil => simp at ha
  | cons x t ih =>
    intro b0
    rw [List.foldlM_cons]
    rcases List.mem_cons.mp ha with rfl | hat
    · simp [hfail b0]
    · cases hfx : f b0 x with
      | none => simp
      | some b1 => simpa [hfx] using ih hat b1

end DijkstraPF

namespace DijkstraPF

/-- On a well-formed 5×5 grid, every in-bounds cell's neighbor computation
succeeds, and each produced entry belongs to a non-wall cell and carries the
index of an in-bounds 4-directional neighbor. -/
theorem neighborsAt_wf {grid : List (List Cat)} (hwf : WF5 grid) {y x : Nat}
    (hy : y < 5) (hx : x < 5) :
    ∃ l, neighborsAt grid 5 y x = some l ∧
      ∀ nd ∈ l, getCell grid y x ≠ some "#" ∧ nbrOK y x nd := by
  obtain ⟨c, hc⟩ := WF5_getCell hwf hy hx
  unfold neighborsAt
  rw [hc]
  simp only [Option.bind_eq_bind, Option.some_bind]
  by_cases hwall : c = "#"
  · rw [if_pos hwall]
    exact ⟨[], rfl, by simp⟩
  · rw [if_neg hwall]
    have hcur : (some c : Option Cat) ≠ some "#" := by
      intro h
      exact hwall (Option.some.inj h)
    by_cases hx0 : x = 0
    · rw [if_pos hx0]
      obtain ⟨a1, ha1, hp1⟩ := probe_ok grid y (x+1) (y*5 + x + 1) ([], 0) (P := nbrOK y x)
        (WF5_getCell hwf hy (by omega)) (by simp)
        (fun c' _ => ⟨(y, x+1), by omega, by omega, rfl,
          by unfold Adj4; exact Or.inl ⟨rfl, Or.inl rfl⟩⟩)
      rw [ha1]
      simp only [Option.some_bind]
      by_cases hy0 : y = 0
      · rw [if_pos hy0]
        obtain ⟨a2, ha2, hp2⟩ := probe_ok grid (y+1) x ((y+1)*5 + x) a1 (P := nbrOK y x)
          (WF5_getCell hwf (by omega) hx) hp1
          (fun c' _ => ⟨(y+1, x), by omega, by omega, rfl,
            by unfold Adj4; exact Or.inr ⟨rfl, Or.inl rfl⟩⟩)
        rw [ha2]
        simp only [Option.some_bind]
        exact ⟨_, rfl, fun nd hnd => ⟨hcur, hp2 nd (List.mem_of_mem_take hnd)⟩⟩
      · rw [if_neg hy0]
        by_cases hy4 : y = 4
        · rw [if_pos hy4]
          obtain ⟨a2, ha2, hp2⟩ := probe_ok grid (y-1) x ((y-1)*5 + x) a1 (P := nbrOK y x)
            (WF5_getCell hwf (by omega) hx) hp1
            (fun c' _ => ⟨(y-1, x), by omega, by omega, rfl,
              by unfold Adj4; exact Or.inr ⟨rfl, Or.inr (by omega)⟩⟩)
          rw [ha2]
          simp only [Option.some_bind]
          exact ⟨_, rfl, fun nd hnd => ⟨hcur, hp2 nd (List.mem_of_mem_take hnd)⟩⟩
        · rw [if_neg hy4]
          obtain ⟨a2, ha2, hp2⟩ := probe_ok grid (y+1) x ((y+1)*5 + x) a1 (P := nbrOK y x)
            (WF5_getCell hwf (by omega) hx) hp1
            (fun c' _ => ⟨(y+1, x), by omega, by omega, rfl,
              by unfold Adj4; exact Or.inr ⟨rfl, Or.inl rfl⟩⟩)
          rw [ha2]
          simp only [Option.some_bind]
          obtain ⟨a3, ha3, hp3⟩ := probe_ok grid (y-1) x ((y-1)*5 + x) a2 (P := nbrOK y x)
            (WF5_getCell hwf (by omega) hx) hp2
            (fun c' _ => ⟨(y-1, x), by omega, by omega, rfl,
              by unfold Adj4; exact Or.inr ⟨rfl, Or.inr (by omega)⟩⟩)
          rw [ha3]
          simp only [Option.some_bind]
          exact ⟨_, rfl, fun nd hnd => ⟨hcur, hp3 nd (List.mem_of_mem_take hnd)⟩⟩
    · rw [if_neg hx0]
      by_cases hx4 : x = 4
      · rw [if_pos hx4]
        obtain ⟨a1, ha1, hp1⟩ := probe_ok grid y (x-1) (y*5 + x - 1) ([], 0) (P := nbrOK y x)
          (WF5_getCell hwf hy (by omega)) (by simp)
          (fun c' _ => ⟨(y, x-1), by omega, by omega, by show y*5 + x - 1 = y*5 + (x-1); omega,
            by unfold Adj4; exact Or.inl ⟨rfl, Or.inr (by omega)⟩⟩)
        rw [ha1]
        simp only [Option.some_bind]
        by_cases hy0 : y = 0
        · rw [if_pos hy0]
          obtain ⟨a2, ha2, hp2⟩ := probe_ok grid (y+1) x ((y+1)*5 + x) a1 (P := nbrOK y x)
            (WF5_getCell hwf (by omega) hx) hp1
            (fun c' _ => ⟨(y+1, x), by omega, by omega, rfl,
              by unfold Adj4; exact Or.inr ⟨rfl, Or.inl rfl⟩⟩)
          rw [ha2]
          simp only [Option.some_bind]
          exact ⟨_, rfl, fun nd hnd => ⟨hcur, hp2 nd (List.mem_of_mem_take hnd)⟩⟩
        · rw [if_neg hy0]
          by_cases hy4 : y = 4
          · rw [if_pos hy4]
            obtain ⟨a2, ha2, hp2⟩ := probe_ok grid (y-1) x ((y-1)*5 + x) a1 (P := nbrOK y x)
              (WF5_getCell hwf (by omega) hx) hp1
              (fun c' _ => ⟨(y-1, x), by omega, by omega, rfl,
                by unfold Adj4; exact Or.inr ⟨rfl, Or.inr (by omega)⟩⟩)
            rw [ha2]
            simp only [Option.some_bind]
            exact ⟨_, rfl, fun nd hnd => ⟨hcur, hp2 nd (List.mem_of_mem_take hnd)⟩⟩
          · rw [if_neg hy4]
            obtain ⟨a2, ha2, hp2⟩ := probe_ok grid (y+1) x ((y+1)*5 + x) a1 (P := nbrOK y x)
              (WF5_getCell hwf (by omega) hx) hp1
              (fun c' _ => ⟨(y+1, x), by omega, by omega, rfl,
                by unfold Adj4; exact Or.inr ⟨rfl, Or.inl rfl⟩⟩)
            rw [ha2]
            simp only [Option.some_bind]
            obtain ⟨a3, ha3, hp3⟩ := probe_ok grid (y-1) x ((y-1)*5 + x) a2 (P := nbrOK y x)
              (WF5_getCell hwf (by omega) hx) hp2
              (fun c' _ => ⟨(y-1, x), by omega, by omega, rfl,
                by unfold Adj4; exact Or.inr ⟨rfl, Or.inr (by omega)⟩⟩)
            rw [ha3]
            simp only [Option.some_bind]
            exact ⟨_, rfl, fun nd hnd => ⟨hcur, hp3 nd (List.mem_of_mem_take hnd)⟩⟩
      · rw [if_neg hx4]
        by_cases hy0 : y = 0
        · rw [if_pos hy0]
          obtain ⟨a1, ha1, hp1⟩ := probe_ok grid (y+1) x ((y+1)*5 + x) ([], 0) (P := nbrOK y x)
            (WF5_getCell hwf (by omega) hx) (by simp)
            (fun c' _ => ⟨(y+1, x), by omega, by omega, rfl,
              by unfold Adj4; exact Or.inr ⟨rfl, Or.inl rfl⟩⟩)
          rw [ha1]
          simp only [Option.some_bind]
          obtain ⟨a2, ha2, hp2⟩ := probe_ok grid y (x-1) (y*5 + x - 1) a1 (P := nbrOK y x)
            (WF5_getCell hwf hy (by omega)) hp1
            (fun c' _ => ⟨(y, x-1), by omega, by omega, by show y*5 + x - 1 = y*5 + (x-1); omega,
              by unfold Adj4; exact Or.inl ⟨rfl, Or.inr (by omega)⟩⟩)
          rw [ha2]
          simp only [Option.some_bind]
          obtain ⟨a3, ha3, hp3⟩ := probe_ok grid y (x+1) (y*5 + x + 1) a2 (P := nbrOK y x)
            (WF5_getCell hwf hy (by omega)) hp2
            (fun c' _ => ⟨(y, x+1), by omega, by omega, rfl,
              by unfold Adj4; exact Or.inl ⟨rfl, Or.inl rfl⟩⟩)
          rw [ha3]
          simp only [Option.some_bind]
          exact ⟨_, rfl, fun nd hnd => ⟨hcur, hp3 nd (List.mem_of_mem_take hnd)⟩⟩
        · rw [if_neg hy0]
          by_cases hy4 : y = 4
          · rw [if_pos hy4]
            obtain ⟨a1, ha1, hp1⟩ := probe_ok grid (y-1) x ((y-1)*5 + x) ([], 0) (P := nbrOK y x)
              (WF5_getCell hwf (by omega) hx) (by simp)
              (fun c' _ => ⟨(y-1, x), by omega, by omega, rfl,
                by unfold Adj4; exact Or.inr ⟨rfl, Or.inr (by omega)⟩⟩)
            rw [ha1]
            simp only [Option.some_bind]
            obtain ⟨a2, ha2, hp2⟩ := probe_ok grid y (x-1) (y*5 + x + 1) a1 (P := nbrOK y x)
              (WF5_getCell hwf hy (by omega)) hp1
              (fun c' _ => ⟨(y, x+1), by omega, by omega, rfl,
                by unfold Adj4; exact Or.inl ⟨rfl, Or.inl rfl⟩⟩)
            rw [ha2]
            simp only [Option.some_bind]
            obtain ⟨a3, ha3, hp3⟩ := probe_ok grid y (x+1) (y*5 + x + 1) a2 (P := nbrOK y x)
              (WF5_getCell hwf hy (by omega)) hp2
              (fun c' _ => ⟨(y, x+1), by omega, by omega, rfl,
                by unfold Adj4; exact Or.inl ⟨rfl, Or.inl rfl⟩⟩)
            rw [ha3]
            simp only [Option.some_bind]
            exact ⟨_, rfl, fun nd hnd => ⟨hcur, hp3 nd (List.mem_of_mem_take hnd)⟩⟩
          · rw [if_neg hy4]
            obtain ⟨a1, ha1, hp1⟩ := probe_ok grid (y-1) x ((y-1)*5 + x) ([], 0) (P := nbrOK y x)
              (WF5_getCell hwf (by omega) hx) (by simp)
              (fun c' _ => ⟨(y-1, x), by omega, by omega, rfl,
                by unfold Adj4; exact Or.inr ⟨rfl, Or.inr (by omega)⟩⟩)
            rw [ha1]
            simp only [Option.some_bind]
            obtain ⟨a2, ha2, hp2⟩ := probe_ok grid y (x-1) (y*5 + x - 1) a1 (P := nbrOK y x)
              (WF5_getCell hwf hy (by omega)) hp1
              (fun c' _ => ⟨(y, x-1), by omega, by omega, by show y*5 + x - 1 = y*5 + (x-1); omega,
                by unfold Adj4; exact Or.inl ⟨rfl, Or.inr (by omega)⟩⟩)
            rw [ha2]
            simp only [Option.some_bind]
            obtain ⟨a3, ha3, hp3⟩ := probe_ok grid y (x+1) (y*5 + x + 1) a2 (P := nbrOK y x)
              (WF5_getCell hwf hy (by omega)) hp2
              (fun c' _ => ⟨(y, x+1), by omega, by omega, rfl,
                by unfold Adj4; exact Or.inl ⟨rfl, Or.inl rfl⟩⟩)
            rw [ha3]
            simp only [Option.some_bind]
            obtain ⟨a4, ha4, hp4⟩ := probe_ok grid (y+1) x ((y+1)*5 + x) a3 (P := nbrOK y x)
              (WF5_getCell hwf (by omega) hx) hp3
              (fun c' _ => ⟨(y+1, x), by omega, by omega, rfl,
                by unfold Adj4; exact Or.inr ⟨rfl, Or.inl rfl⟩⟩)
            rw [ha4]
            simp only [Option.some_bind]
            exact ⟨_, rfl, fun nd hnd => ⟨hcur, hp4 nd (List.mem_of_mem_take hnd)⟩⟩

end DijkstraPF

namespace DijkstraPF

/-- Running the cell loop of `fillAdjecencyList` over a list of in-bounds,
index-distinct cells on a well-formed 5×5 grid succeeds; each processed cell's
adjacency row and set entry afterwards hold the per-cell computation, untouched
indices are unchanged, and `start_node`/`goal_node` end up at the last
`"s"`/`"g"` cell processed (or keep their incoming values if none occurs). -/
theorem fillFold_ok {grid : List (List Cat)} (hwf : WF5 grid) :
    ∀ (todo : List (Nat × Nat)) (st : BuildState),
      (∀ p ∈ todo, p.1 < 5 ∧ p.2 < 5) →
      List.Pairwise (fun p q => cellIdx p ≠ cellIdx q) todo →
      st.set.length = 25 → st.adjecencyList.length = 25 →
      ∃ st', todo.foldlM (fillCell grid 5 5) st = some st' ∧
        st'.set.length = 25 ∧ st'.adjecencyList.length = 25 ∧
        (∀ p ∈ todo,
          st'.adjecencyList.get? (cellIdx p) = neighborsAt grid 5 p.1 p.2 ∧
          ∃ c, getCell grid p.1 p.2 = some c ∧
            st'.set.get? (cellIdx p) = some ⟨c, cellIdx p⟩) ∧
        (∀ i, (∀ p ∈ todo, cellIdx p ≠ i) →
          st'.adjecencyList.get? i = st.adjecencyList.get? i ∧
          st'.set.get? i = st.set.get? i) ∧
        ((∀ p ∈ todo, getCell grid p.1 p.2 ≠ some "s") ∧ st'.start_node = st.start_node ∨
          ∃ p ∈ todo, getCell grid p.1 p.2 = some "s" ∧
            st'.start_node = ((cellIdx p : Nat) : Int)) ∧
        ((∀ p ∈ todo, getCell grid p.1 p.2 ≠ some "g") ∧ st'.goal_node = st.goal_node ∨
          ∃ p ∈ todo, getCell grid p.1 p.2 = some "g" ∧
            st'.goal_node = ((cellIdx p : Nat) : Int)) := by
  intro todo
  induction todo with
  | nil =>
    intro st _ _ h1 h2
    exact ⟨st, by simp, h1, h2, by simp, fun i _ => ⟨rfl, rfl⟩,
      Or.inl ⟨by simp, rfl⟩, Or.inl ⟨by simp, rfl⟩⟩
  | cons p0 rest ih =>
    intro st hb hpw hs ha
    have hb0 : p0.1 < 5 ∧ p0.2 < 5 := hb p0 (by simp)
    have hbr : ∀ q ∈ rest, q.1 < 5 ∧ q.2 < 5 := fun q hq => hb q (by simp [hq])
    obtain ⟨c0, hc0⟩ := WF5_getCell hwf hb0.1 hb0.2
    obtain ⟨nb0, hnb0, _⟩ := neighborsAt_wf hwf hb0.1 hb0.2
    have hidx : p0.1 * 5 + p0.2 < 25 := by omega
    -- the result of the single `fillCell` step on `p0`
    have hstep : fillCell grid 5 5 st p0 = some
        ⟨st.set.set (p0.1 * 5 + p0.2) ⟨c0, p0.1 * 5 + p0.2⟩,
         st.adjecencyList.set (p0.1 * 5 + p0.2) nb0,
         if c0 = "s" then ((p0.1 * 5 + p0.2 : Nat) : Int) else st.start_node,
         if c0 = "g" then ((p0.1 * 5 + p0.2 : Nat) : Int) else st.goal_node⟩ := by
      unfold fillCell
      rw [hc0]
      simp only [Option.bind_eq_bind, Option.some_bind]
      rw [setL_ok (show p0.1 * 5 + p0.2 < st.set.length by omega)]
      simp only [Option.some_bind]
      rw [hnb0]
      simp only [Option.some_bind]
      rw [setL_ok (show p0.1 * 5 + p0.2 < st.adjecencyList.length by omega)]
      simp only [Option.some_bind]
      rfl
    set st1 : BuildState :=
      ⟨st.set.set (p0.1 * 5 + p0.2) ⟨c0, p0.1 * 5 + p0.2⟩,
       st.adjecencyList.set (p0.1 * 5 + p0.2) nb0,
       if c0 = "s" then ((p0.1 * 5 + p0.2 : Nat) : Int) else st.start_node,
       if c0 = "g" then ((p0.1 * 5 + p0.2 : Nat) : Int) else st.goal_node⟩ with hst1
    have hs1 : st1.set.length = 25 := by simp [hst1, hs]
    have ha1 : st1.adjecencyList.length = 25 := by simp [hst1, ha]
    obtain ⟨st', hfold, hs', ha', hper, hunch, hstart, hgoal⟩ :=
      ih st1 hbr (List.Pairwise.of_cons hpw) hs1 ha1
    have hrest_ne : ∀ q ∈ rest, cellIdx q ≠ cellIdx p0 := by
      intro q hq
      exact fun h => (List.pairwise_cons.mp hpw).1 q hq h.symm
    have hcidx : cellIdx p0 = p0.1 * 5 + p0.2 := rfl
    refine ⟨st', ?_, hs', ha', ?_, ?_, ?_, ?_⟩
    · rw [List.foldlM_cons, hstep]
      simpa using hfold
    · -- per-cell characterisation
      intro p hp
      rcases List.mem_cons.mp hp with rfl | hp'
      · obtain ⟨hadj_unch, hset_unch⟩ := hunch (cellIdx p) (fun q hq => hrest_ne q hq)
        constructor
        · rw [hadj_unch, hcidx, hst1]
          show (st.adjecencyList.set (p.1 * 5 + p.2) nb0).get? (p.1 * 5 + p.2) = _
          rw [get?_set_self (by omega), hnb0]
        · refine ⟨c0, hc0, ?_⟩
          rw [hset_unch, hcidx, hst1]
          show (st.set.set (p.1 * 5 + p.2) _).get? (p.1 * 5 + p.2) = _
          rw [get?_set_self (by omega)]
      · exact hper p hp'
    · -- untouched indices
      intro i hi
      obtain ⟨h1, h2⟩ := hunch i (fun q hq => hi q (by simp [hq]))
      have hne : cellIdx p0 ≠ i := hi p0 (by simp)
      constructor
      · rw [h1, hst1]
        show (st.adjecencyList.set (p0.1 * 5 + p0.2) nb0).get? i = _
        rw [List.get?_set_ne _ _ (by rw [← hcidx]; exact hne)]
      · rw [h2, hst1]
        show (st.set.set (p0.1 * 5 + p0.2) _).get? i = _
        rw [List.get?_set_ne _ _ (by rw [← hcidx]; exact hne)]
    · -- start node
      rcases hstart with ⟨hnos, heq⟩ | ⟨q, hq, hqs, heq⟩
      · by_cases hc0s : c0 = "s"
        · refine Or.inr ⟨p0, by simp, by rw [hc0, hc0s], ?_⟩
          rw [heq, hst1]
          show (if c0 = "s" then ((p0.1 * 5 + p0.2 : Nat) : Int) else st.start_node) = _
          rw [if_pos hc0s, hcidx]
        · refine Or.inl ⟨?_, ?_⟩
          · intro p hp
            rcases List.mem_cons.mp hp with rfl | hp'
            · rw [hc0]
              intro h
              exact hc0s (Option.some.inj h)
            · exact hnos p hp'
          · rw [heq, hst1]
            show (if c0 = "s" then ((p0.1 * 5 + p0.2 : Nat) : Int) else st.start_node) = _
            rw [if_neg hc0s]
      · exact Or.inr ⟨q, by simp [hq], hqs, heq⟩
    · -- goal node
      rcases hgoal with ⟨hnog, heq⟩ | ⟨q, hq, hqg, heq⟩
      · by_cases hc0g : c0 = "g"
        · refine Or.inr ⟨p0, by simp, by rw [hc0, hc0g], ?_⟩
          rw [heq, hst1]
          show (if c0 = "g" then ((p0.1 * 5 + p0.2 : Nat) : Int) else st.goal_node) = _
          rw [if_pos hc0g, hcidx]
        · refine Or.inl ⟨?_, ?_⟩
          · intro p hp
            rcases List.mem_cons.mp hp with rfl | hp'
            · rw [hc0]
              intro h
              exact hc0g (Option.some.inj h)
            · exact hnog p hp'
          · rw [heq, hst1]
            show (if c0 = "g" then ((p0.1 * 5 + p0.2 : Nat) : Int) else st.goal_node) = _
            rw [if_neg hc0g]
      · exact Or.inr ⟨q, by simp [hq], hqg, heq⟩

end DijkstraPF

namespace DijkstraPF

/-- Building a graph over a well-formed 5×5 grid succeeds, and the result is
fully characterised: 25 set entries and adjacency rows matching the per-cell
computation, zeroed `dist`/`prev`, the grid itself, and `start_node`/`goal_node`
pointing at a `"s"`/`"g"` cell when one exists (the `-1` sentinel otherwise). -/
theorem graphOfGrid_ok {grid : List (List Cat)} (hwf : WF5 grid) :
    ∃ G, graphOfGrid grid = some G ∧
      G.set.length = 25 ∧ G.adjecencyList.length = 25 ∧
      G.dist = List.replicate 25 0 ∧ G.prev = List.replicate 25 0 ∧
      G.gridMatrix = grid ∧
      (∀ i, i < 25 → G.adjecencyList.get? i = neighborsAt grid 5 (i / 5) (i % 5)) ∧
      (∀ i, i < 25 → ∃ c, getCell grid (i / 5) (i % 5) = some c ∧
        G.set.get? i = some ⟨c, i⟩) ∧
      ((∀ y x, y < 5 → x < 5 → getCell grid y x ≠ some "s") ∧ G.start_node = -1 ∨
        ∃ y x, y < 5 ∧ x < 5 ∧ getCell grid y x = some "s" ∧
          G.start_node = ((y * 5 + x : Nat) : Int)) ∧
      ((∀ y x, y < 5 → x < 5 → getCell grid y x ≠ some "g") ∧ G.goal_node = -1 ∨
        ∃ y x, y < 5 ∧ x < 5 ∧ getCell grid y x = some "g" ∧
          G.goal_node = ((y * 5 + x : Nat) : Int)) := by
  have hcells_bounds : ∀ p ∈ gridCells 5 5, p.1 < 5 ∧ p.2 < 5 := by decide
  have hcells_pw : List.Pairwise (fun p q => cellIdx p ≠ cellIdx q) (gridCells 5 5) := by decide
  have hcells_mem : ∀ i, i < 25 → (i / 5, i % 5) ∈ gridCells 5 5 := by decide
  have hcells_mem' : ∀ y, y < 5 → ∀ x, x < 5 → (y, x) ∈ gridCells 5 5 := by decide
  obtain ⟨st', hfold, hs', ha', hper, _, hstart, hgoal⟩ :=
    fillFold_ok hwf (gridCells 5 5)
      ⟨List.replicate 25 ⟨"", 0⟩, List.replicate 25 [], -1, -1⟩
      hcells_bounds hcells_pw (by simp) (by simp)
  refine ⟨⟨st'.set, st'.adjecencyList, st'.start_node, st'.goal_node,
    List.replicate 25 0, List.replicate 25 0, grid, 5, 5⟩, ?_, hs', ha', rfl, rfl, rfl,
    ?_, ?_, ?_, ?_⟩
  · unfold graphOfGrid fillAdjecencyList
    simp only [Option.bind_eq_bind]
    show ((gridCells 5 5).foldlM (fillCell grid 5 5)
      ⟨List.replicate 25 ⟨"", 0⟩, List.replicate 25 [], -1, -1⟩).bind _ = _
    rw [hfold]
    rfl
  · intro i hi
    have := (hper (i / 5, i % 5) (hcells_mem i hi)).1
    have hci : cellIdx (i / 5, i % 5) = i := by unfold cellIdx; omega
    rwa [hci] at this
  · intro i hi
    obtain ⟨c, hc, hset⟩ := (hper (i / 5, i % 5) (hcells_mem i hi)).2
    have hci : cellIdx (i / 5, i % 5) = i := by unfold cellIdx; omega
    rw [hci] at hset
    exact ⟨c, hc, hset⟩
  · rcases hstart with ⟨hnos, heq⟩ | ⟨q, hq, hqs, heq⟩
    · exact Or.inl ⟨fun y x hy hx => hnos (y, x) (hcells_mem' y hy x hx), heq⟩
    · obtain ⟨hq1, hq2⟩ := hcells_bounds q hq
      exact Or.inr ⟨q.1, q.2, hq1, hq2, hqs, heq⟩
  · rcases hgoal with ⟨hnog, heq⟩ | ⟨q, hq, hqg, heq⟩
    · exact Or.inl ⟨fun y x hy hx => hnog (y, x) (hcells_mem' y hy x hx), heq⟩
    · obtain ⟨hq1, hq2⟩ := hcells_bounds q hq
      exact Or.inr ⟨q.1, q.2, hq1, hq2, hqg, heq⟩

end DijkstraPF

namespace DijkstraPF

theorem get?_replicate {α : Type} {a : α} {n i : Nat} :
    (List.replicate n a).get? i = if i < n then some a else none := by
  rw [List.get?_eq_getElem?, List.getElem?_replicate]

/-- The minimum scan of `PathFinder` succeeds when every unvisited node's index
is a valid `dist` index, and the index it returns is 0 or a valid position in
the unvisited list. -/
theorem findMin_ok {dist : List Nat} {unvisited : List node} (inf : Nat)
    (hnd : ∀ nd ∈ unvisited, nd.set_index < dist.length) :
    ∃ mi : Nat × Nat, findMin dist unvisited inf = some mi ∧
      (mi.1 = 0 ∨ mi.1 < unvisited.length) := by
  unfold findMin
  apply foldlM_option_inv (P := fun mi => mi.1 = 0 ∨ mi.1 < unvisited.length)
    ?_ (0, inf) (Or.inl rfl)
  intro b a ha hb
  obtain ⟨k, nd⟩ := a
  rw [List.enum_eq_zip_range] at ha
  obtain ⟨hk, hmem⟩ := List.of_mem_zip ha
  rw [List.mem_range] at hk
  obtain ⟨d, hd⟩ := get?_some_of_lt (hnd nd hmem)
  refine ⟨if d < b.2 then (k, d) else b, ?_, ?_⟩
  · simp only [hd, Option.bind_eq_bind, Option.some_bind]
    split <;> rfl
  · split
    · exact Or.inr hk
    · exact hb

/-- One relaxation pass of `PathFinder` succeeds and preserves the search
invariant, given that every neighbor entry is in bounds and is a real edge of
the adjacency structure. -/
theorem relax_ok {adj : List (List node)} {s : Nat} {curr : node} {nbrs : List node}
    {dist prev : List Nat}
    (hcur : curr.set_index < 25)
    (hnbrs : ∀ nd ∈ nbrs, nd.set_index < 25 ∧ codeStep adj curr.set_index nd.set_index)
    (hinv : SearchInv adj s dist prev) :
    ∃ dp, relax curr nbrs (dist, prev) = some dp ∧ SearchInv adj s dp.1 dp.2 := by
  unfold relax
  refine foldlM_option_inv (P := fun dp => SearchInv adj s dp.1 dp.2) ?_ (dist, prev) hinv
  intro dp nd hnd hdp
  obtain ⟨hdl, hpl, hB, hR, hP0, hPB, hP4⟩ := hdp
  obtain ⟨hnd25, hstep⟩ := hnbrs nd hnd
  obtain ⟨dc, hdc⟩ := get?_some_of_lt (l := dp.1) (i := curr.set_index) (by omega)
  obtain ⟨dn, hdn⟩ := get?_some_of_lt (l := dp.1) (i := nd.set_index) (by omega)
  have hdn25 : dn ≤ 25 := hB _ _ hdn
  by_cases halt : dc + 1 < dn
  · have hknu : nd.set_index ≠ curr.set_index := by
      intro h
      rw [h, hdc] at hdn
      have := Option.some.inj hdn
      omega
    refine ⟨(dp.1.set nd.set_index (dc + 1), dp.2.set nd.set_index curr.set_index), ?_, ?_⟩
    · simp only [hdc, hdn, Option.bind_eq_bind, Option.some_bind]
      rw [if_pos halt]
      rw [setL_ok (show nd.set_index < dp.1.length by omega)]
      simp only [Option.some_bind]
      rw [setL_ok (show nd.set_index < dp.2.length by omega)]
      simp only [Option.some_bind]
      rfl
    · have hgetd : ∀ i, i ≠ nd.set_index →
          (dp.1.set nd.set_index (dc+1)).get? i = dp.1.get? i :=
        fun i hi => List.get?_set_ne _ _ (Ne.symm hi)
      have hgetdk : (dp.1.set nd.set_index (dc+1)).get? nd.set_index = some (dc+1) :=
        get?_set_self (by omega) _
      have hgetp : ∀ i, i ≠ nd.set_index →
          (dp.2.set nd.set_index curr.set_index).get? i = dp.2.get? i :=
        fun i hi => List.get?_set_ne _ _ (Ne.symm hi)
      have hgetpk : (dp.2.set nd.set_index curr.set_index).get? nd.set_index =
          some curr.set_index := get?_set_self (by omega) _
      refine ⟨by simp [hdl], by simp [hpl], ?_, ?_, ?_, ?_, ?_⟩
      · intro i d hd
        by_cases hik : i = nd.set_index
        · subst hik
          rw [hgetdk] at hd
          have := Option.some.inj hd
          omega
        · rw [hgetd i hik] at hd
          exact hB i d hd
      · intro i d hd hlt
        by_cases hik : i = nd.set_index
        · subst hik
          have hreach : codeReach adj s curr.set_index := hR _ dc hdc (by omega)
          exact Relation.ReflTransGen.tail hreach hstep
        · rw [hgetd i hik] at hd
          exact hR i d hd hlt
      · intro i d hd h25
        by_cases hik : i = nd.set_index
        · subst hik
          rw [hgetdk] at hd
          have := Option.some.inj hd
          omega
        · rw [hgetd i hik] at hd
          rw [hgetp i hik]
          exact hP0 i d hd h25
      · intro v p hp
        by_cases hvk : v = nd.set_index
        · subst hvk
          rw [hgetpk] at hp
          have := Option.some.inj hp
          omega
        · rw [hgetp v hvk] at hp
          exact hPB v p hp
      · intro v p hp hpne
        by_cases hvk : v = nd.set_index
        · subst hvk
          rw [hgetpk] at hp
          have hpu : p = curr.set_index := (Option.some.inj hp).symm
          subst hpu
          refine ⟨dc + 1, dc, hgetdk, ?_, by omega⟩
          rw [hgetd curr.set_index (Ne.symm hknu)]
          exact hdc
        · rw [hgetp v hvk] at hp
          obtain ⟨dv, dpp, hdv, hdpp, hlt⟩ := hP4 v p hp hpne
          by_cases hpk : p = nd.set_index
          · subst hpk
            have hdpn : dpp = dn := by
              rw [hdpp] at hdn
              exact Option.some.inj hdn
            refine ⟨dv, dc + 1, ?_, hgetdk, by omega⟩
            rw [hgetd v hvk]
            exact hdv
          · refine ⟨dv, dpp, ?_, ?_, hlt⟩
            · rw [hgetd v hvk]
              exact hdv
            · rw [hgetd p hpk]
              exact hdpp
  · refine ⟨dp, ?_, ⟨hdl, hpl, hB, hR, hP0, hPB, hP4⟩⟩
    simp only [hdc, hdn, Option.bind_eq_bind, Option.some_bind]
    rw [if_neg halt]
    rfl

end DijkstraPF

namespace DijkstraPF

/-- The main loop of `PathFinder`, run with fuel equal to the unvisited-queue
length (as `PathFinder` does), succeeds and preserves the search invariant. -/
theorem dijkstra_ok {adj : List (List node)} (hadj : AdjOK adj) {s : Nat} :
    ∀ (n : Nat) (unvisited : List node) (dist prev : List Nat),
      unvisited.length = n →
      (∀ nd ∈ unvisited, nd.set_index < 25) →
      SearchInv adj s dist prev →
      ∃ dp, dijkstraLoop adj 25 n unvisited dist prev = some dp ∧
        SearchInv adj s dp.1 dp.2 := by
  intro n
  induction n with
  | zero =>
    intro unvisited dist prev hlen hu hinv
    have he : unvisited = [] := List.length_eq_zero.mp hlen
    subst he
    exact ⟨(dist, prev), by simp [dijkstraLoop], hinv⟩
  | succ m ih =>
    intro unvisited dist prev hlen hu hinv
    have hpos : unvisited.length > 0 := by omega
    have hdl : dist.length = 25 := hinv.1
    have hscan : ∀ nd ∈ unvisited, nd.set_index < dist.length := fun nd hnd => by
      rw [hdl]
      exact hu nd hnd
    obtain ⟨mi, hmi, hmior⟩ := findMin_ok 25 hscan
    have hmilt : mi.1 < unvisited.length := by
      rcases hmior with h | h
      · omega
      · exact h
    obtain ⟨curr, hcurr⟩ := get?_some_of_lt hmilt
    have hcmem : curr ∈ unvisited := List.get?_mem hcurr
    have hc25 : curr.set_index < 25 := hu curr hcmem
    obtain ⟨dc, hdc⟩ := get?_some_of_lt (l := dist) (i := curr.set_index) (by omega)
    have herase : (unvisited.eraseIdx mi.1).length = m := by
      rw [List.length_eraseIdx]
      rw [if_pos hmilt]
      omega
    simp only [dijkstraLoop]
    rw [if_pos hpos, hmi]
    simp only [Option.bind_eq_bind, Option.some_bind]
    rw [hcurr]
    simp only [Option.some_bind]
    rw [hdc]
    simp only [Option.some_bind]
    by_cases hdc25 : dc = 25
    · rw [if_pos hdc25]
      exact ⟨(dist, prev), rfl, hinv⟩
    · rw [if_neg hdc25]
      obtain ⟨nbrs, hnbrs⟩ := get?_some_of_lt (l := adj) (i := curr.set_index)
        (by rw [hadj.1]; omega)
      rw [hnbrs]
      simp only [Option.some_bind]
      obtain ⟨dp1, hrelax, hinv1⟩ := relax_ok hc25
        (fun nd hnd => ⟨hadj.2 _ _ hnbrs nd hnd, ⟨nbrs, hnbrs, nd, hnd, rfl⟩⟩) hinv
      rw [hrelax]
      simp only [Option.some_bind]
      obtain ⟨dp, hdp, hinvdp⟩ := ih (unvisited.eraseIdx mi.1) dp1.1 dp1.2 herase
        (fun nd hnd => hu nd ((List.eraseIdx_sublist unvisited mi.1).subset hnd)) hinv1
      exact ⟨dp, hdp, hinvdp⟩

end DijkstraPF

namespace DijkstraPF

/-- The initialisation loop of `PathFinder` over `enumFrom j t` succeeds when
both arrays are long enough, copies `t` into positions `j..` of the first and
writes `inf` into the same positions of the second, leaving the rest alone. -/
theorem initFold_ok (inf : Nat) :
    ∀ (t : List node) (j : Nat) (u : List node) (d : List Nat),
      j + t.length ≤ u.length → j + t.length ≤ d.length →
      ∃ ud : List node × List Nat,
        (List.enumFrom j t).foldlM (initStep inf) (u, d) = some ud ∧
        ud.1.length = u.length ∧ ud.2.length = d.length ∧
        (∀ i, i < j ∨ j + t.length ≤ i →
          ud.1.get? i = u.get? i ∧ ud.2.get? i = d.get? i) ∧
        (∀ k, k < t.length →
          ud.1.get? (j + k) = t.get? k ∧ ud.2.get? (j + k) = some inf) := by
  intro t
  induction t with
  | nil =>
    intro j u d _ _
    exact ⟨(u, d), by simp [List.enumFrom], rfl, rfl, fun i _ => ⟨rfl, rfl⟩, by simp⟩
  | cons a t ih =>
    intro j u d hu hd
    have hju : j < u.length := by simp at hu; omega
    have hjd : j < d.length := by simp at hd; omega
    have hstep : initStep inf (u, d) (j, a) = some (u.set j a, d.set j inf) := by
      unfold initStep
      rw [setL_ok hju]
      simp only [Option.bind_eq_bind, Option.some_bind]
      rw [setL_ok hjd]
      simp only [Option.some_bind]
      rfl
    obtain ⟨ud, hfold, hl1, hl2, hunch, hwr⟩ := ih (j+1) (u.set j a) (d.set j inf)
      (by simp at hu ⊢; omega) (by simp at hd ⊢; omega)
    refine ⟨ud, ?_, by simpa using hl1, by simpa using hl2, ?_, ?_⟩
    · rw [List.enumFrom_cons, List.foldlM_cons, hstep]
      simpa using hfold
    · intro i hi
      have hine : i ≠ j := by simp at hi; omega
      obtain ⟨h1, h2⟩ := hunch i (by simp at hi ⊢; omega)
      rw [h1, h2, List.get?_set_ne _ _ (Ne.symm hine), List.get?_set_ne _ _ (Ne.symm hine)]
      exact ⟨rfl, rfl⟩
    · intro k hk
      cases k with
      | zero =>
        obtain ⟨h1, h2⟩ := hunch j (by omega)
        rw [Nat.add_zero]
        rw [h1, h2, get?_set_self hju, get?_set_self hjd]
        exact ⟨rfl, rfl⟩
      | succ k' =>
        have hk' : k' < t.length := by simp at hk; omega
        obtain ⟨h1, h2⟩ := hwr k' hk'
        have hidx : j + (k' + 1) = (j + 1) + k' := by omega
        rw [hidx, h1, h2]
        exact ⟨rfl, rfl⟩

/-- The path-marking walk terminates within the fuel `PathFinder` provides and
performs only in-bounds accesses, on a well-formed 5×5 grid with the invariant
facts about `prev`/`dist`: the distances strictly decrease along nonzero
predecessor links, so the chain is shorter than the fuel. -/
theorem markLoop_ok {prev dist : List Nat} (hp : prev.length = 25)
    (hPB : ∀ v p, prev.get? v = some p → p < 25)
    (hP4 : ∀ v p, prev.get? v = some p → p ≠ 0 →
      ∃ dv dpp, dist.get? v = some dv ∧ dist.get? p = some dpp ∧ dpp < dv) :
    ∀ (fuel i : Nat) (grid : List (List Cat)), WF5 grid → i < 25 →
      (i ≠ 0 → ∃ di, dist.get? i = some di ∧ di < fuel) →
      ∃ grid', markLoop prev fuel i grid = some grid' ∧ WF5 grid' := by
  intro fuel
  induction fuel with
  | zero =>
    intro i grid hwf hi hfuel
    by_cases hi0 : i = 0
    · subst hi0
      exact ⟨grid, by simp [markLoop], hwf⟩
    · obtain ⟨di, _, h⟩ := hfuel hi0
      omega
  | succ f ih =>
    intro i grid hwf hi hfuel
    by_cases hi0 : i = 0
    · subst hi0
      exact ⟨grid, by simp [markLoop], hwf⟩
    · have hipos : i > 0 := by omega
      obtain ⟨grid1, hset, hwf1⟩ := setCell_ok hwf
        (show (i - i % 5) / 5 < 5 by omega) (show i % 5 < 5 by omega) "."
      obtain ⟨i', hi'⟩ := get?_some_of_lt (l := prev) (i := i) (by omega)
      have hi'25 := hPB i i' hi'
      have hnext : i' ≠ 0 → ∃ di, dist.get? i' = some di ∧ di < f := by
        intro hi'0
        obtain ⟨dv, dpp, hdv, hdpp, hlt⟩ := hP4 i i' hi' hi'0
        obtain ⟨di, hdi, hdif⟩ := hfuel hi0
        have hdidv : di = dv := by
          rw [hdi] at hdv
          exact Option.some.inj hdv
        exact ⟨dpp, hdpp, by omega⟩
      obtain ⟨grid', hrec, hwf'⟩ := ih i' grid1 hwf1 hi'25 hnext
      refine ⟨grid', ?_, hwf'⟩
      simp only [markLoop]
      rw [if_pos hipos, hset]
      simp only [Option.bind_eq_bind, Option.some_bind]
      rw [hi']
      simp only [Option.some_bind]
      exact hrec

end DijkstraPF

namespace DijkstraPF

theorem getI_natCast {α : Type} (l : List α) (n : Nat) :
    getI l ((n : Nat) : Int) = l.get? n := by
  unfold getI
  rw [if_neg (not_lt.mpr (Int.natCast_nonneg n))]
  rw [Int.toNat_natCast]

theorem setI_natCast {α : Type} (l : List α) (n : Nat) (v : α) :
    setI l ((n : Nat) : Int) v = setL l n v := by
  unfold setI
  rw [if_neg (not_lt.mpr (Int.natCast_nonneg n))]
  rw [Int.toNat_natCast]

end DijkstraPF

namespace DijkstraPF

/-- Full characterisation of one `PathFinder` run on a rebuilt 5×5 graph whose
start and goal indices are set: the run succeeds (all accesses in bounds, all
loops terminate), the final search state satisfies the invariant, the marking
walk does nothing when the goal's predecessor is still 0, and the result is the
goal's distance or `-1` at the sentinel. -/
theorem pathFinder_char {G : Graph} {grid : List (List Cat)} {s t : Nat}
    (hwf : WF5 grid)
    (hsetlen : G.set.length = 25)
    (hset : ∀ i, i < 25 → ∃ c, G.set.get? i = some ⟨c, i⟩)
    (hadj : AdjOK G.adjecencyList)
    (hstart : G.start_node = ((s : Nat) : Int)) (hs25 : s < 25)
    (hgoal : G.goal_node = ((t : Nat) : Int)) (hgl25 : t < 25)
    (hdist : G.dist.length = 25)
    (hprev : G.prev = List.replicate 25 0)
    (hgrid : G.gridMatrix = grid) :
    ∃ dist' prev' grid' res,
      PathFinder G =
        some ({G with dist := dist', prev := prev', gridMatrix := grid'}, res) ∧
      SearchInv G.adjecencyList s dist' prev' ∧
      (∃ p0, prev'.get? t = some p0 ∧ (p0 = 0 → grid' = grid)) ∧
      (∃ dg, dist'.get? t = some dg ∧ res = if dg ≠ 25 then (dg : Int) else -1) := by
  have hu : ∀ nd ∈ G.set, nd.set_index < 25 := by
    intro nd hnd
    obtain ⟨n, hn⟩ := List.mem_iff_get?.mp hnd
    have hn25 : n < 25 := by
      have := lt_of_get?_some hn
      omega
    obtain ⟨c, hc⟩ := hset n hn25
    rw [hn] at hc
    have hnd_eq : nd = ⟨c, n⟩ := Option.some.inj hc
    rw [hnd_eq]
    exact hn25
  simp only [PathFinder, Option.bind_eq_bind]
  rw [hsetlen, hadj.1, hstart, hgoal, hprev, hgrid]
  rw [show G.set.enum = List.enumFrom 0 G.set from rfl]
  obtain ⟨ud, hfold, hl1, hl2, hunch, hwr⟩ := initFold_ok 25 G.set 0
    (List.replicate 25 ⟨"", 0⟩) G.dist (by simp; omega) (by simp; omega)
  have hud1 : ud.1 = G.set := by
    apply List.ext
    intro n
    by_cases hn : n < 25
    · have h := (hwr n (by omega)).1
      rwa [Nat.zero_add] at h
    · have h1 := (hunch n (Or.inr (by omega))).1
      rw [h1, get?_replicate, if_neg hn, List.get?_eq_none.mpr (by omega)]
  have hud2 : ud.2 = List.replicate 25 25 := by
    apply List.ext
    intro n
    by_cases hn : n < 25
    · have h := (hwr n (by omega)).2
      rw [Nat.zero_add] at h
      rw [h, get?_replicate, if_pos hn]
    · have h2 := (hunch n (Or.inr (by omega))).2
      rw [h2, get?_replicate, if_neg hn, List.get?_eq_none.mpr (by omega)]
  rw [hfold]
  simp only [Option.some_bind]
  rw [hud1, hud2, hsetlen]
  rw [setI_natCast, setL_ok (show s < (List.replicate 25 (25:Nat)).length by simpa using hs25)]
  simp only [Option.some_bind]
  -- the initial search state satisfies the invariant
  have hds : ∀ i, ((List.replicate 25 (25:Nat)).set s 0).get? i =
      if i = s then some 0 else if i < 25 then some 25 else none := by
    intro i
    by_cases his : i = s
    · subst his
      rw [if_pos rfl]
      exact get?_set_self (by simpa using hs25) _
    · rw [if_neg his, List.get?_set_ne _ _ (Ne.symm his), get?_replicate]
  have hinv0 : SearchInv G.adjecencyList s ((List.replicate 25 (25:Nat)).set s 0)
      (List.replicate 25 0) := by
    refine ⟨by simp, by simp, ?_, ?_, ?_, ?_, ?_⟩
    · intro i d hd
      rw [hds i] at hd
      split_ifs at hd with h1 h2
      · have := Option.some.inj hd
        omega
      · have := Option.some.inj hd
        omega
    · intro i d hd hlt
      rw [hds i] at hd
      split_ifs at hd with h1 h2
      · subst h1
        exact Relation.ReflTransGen.refl
      · have := Option.some.inj hd
        omega
    · intro i d hd h25
      rw [hds i] at hd
      split_ifs at hd with h1 h2
      · have := Option.some.inj hd
        omega
      · rw [get?_replicate, if_pos h2]
    · intro v p hp
      rw [get?_replicate] at hp
      split_ifs at hp
      · have := Option.some.inj hp
        omega
    · intro v p hp hpne
      rw [get?_replicate] at hp
      split_ifs at hp
      · have := Option.some.inj hp
        omega
  obtain ⟨dp, hdp, hinvdp⟩ := dijkstra_ok hadj 25 G.set
    ((List.replicate 25 25).set s 0) (List.replicate 25 0) hsetlen hu hinv0
  rw [hdp]
  simp only [Option.some_bind]
  obtain ⟨hdl', hpl', hB', hR', hP0', hPB', hP4'⟩ := hinvdp
  rw [getI_natCast]
  obtain ⟨p0, hp0⟩ := get?_some_of_lt (l := dp.2) (i := t) (by omega)
  rw [hp0]
  simp only [Option.some_bind]
  rw [hpl']
  obtain ⟨grid2, hmark, _⟩ := markLoop_ok hpl' hPB' hP4' (25 + 1) p0 grid hwf
    (hPB' t p0 hp0)
    (by
      intro hp00
      obtain ⟨dv, dpp, hdv, hdpp, hlt⟩ := hP4' t p0 hp0 hp00
      have := hB' t dv hdv
      exact ⟨dpp, hdpp, by omega⟩)
  rw [hmark]
  simp only [Option.some_bind]
  rw [getI_natCast]
  obtain ⟨dg, hdg⟩ := get?_some_of_lt (l := dp.1) (i := t) (by omega)
  rw [hdg]
  simp only [Option.some_bind]
  have hgrid0 : p0 = 0 → grid2 = grid := by
    intro h0
    subst h0
    have hml : markLoop dp.2 (25 + 1) 0 grid = some grid := by simp [markLoop]
    rw [hml] at hmark
    exact (Option.some.inj hmark).symm
  exact ⟨dp.1, dp.2, grid2, if dg ≠ 25 then (dg : Int) else -1, rfl,
    ⟨hdl', hpl', hB', hR', hP0', hPB', hP4'⟩, ⟨p0, hp0, hgrid0⟩, ⟨dg, hdg, rfl⟩⟩

end DijkstraPF

namespace DijkstraPF

/-- A node reachable along the built adjacency structure whose own cell is not
a wall is grid-reachable: every adjacency edge starts at a non-wall cell and
moves to a 4-directional neighbor, so a chain of them ending at a non-wall cell
is a chain of non-wall neighbor steps. -/
theorem codeReach_grid {grid : List (List Cat)} (hwf : WF5 grid)
    {adj : List (List node)}
    (hlen : adj.length = 25)
    (hchar : ∀ i, i < 25 → adj.get? i = neighborsAt grid 5 (i / 5) (i % 5))
    {s : Nat} :
    ∀ v, codeReach adj s v → v < 25 →
      getCell grid (v / 5) (v % 5) ≠ some "#" →
      GridReach grid (s / 5, s % 5) (v / 5, v % 5) := by
  intro v h
  induction h with
  | refl => intro _ _; exact Relation.ReflTransGen.refl
  | @tail b c hr hstep ih =>
    intro hc25 hcnw
    obtain ⟨l, hgetl, nd, hnd, hidx⟩ := hstep
    have hb25 : b < 25 := by
      have := lt_of_get?_some hgetl
      omega
    have hby : b / 5 < 5 := by omega
    have hbx : b % 5 < 5 := by omega
    have hnb : neighborsAt grid 5 (b / 5) (b % 5) = some l := by
      rw [← hchar b hb25]
      exact hgetl
    obtain ⟨l', hl', hprop⟩ := neighborsAt_wf hwf hby hbx
    have hll : l' = l := by
      rw [hnb] at hl'
      exact (Option.some.inj hl').symm
    subst hll
    obtain ⟨hbnw, q, hq1, hq2, hqidx, hadj4⟩ := hprop nd hnd
    obtain ⟨q1, q2⟩ := q
    simp only at hq1 hq2 hqidx hadj4
    have hcq : c = q1 * 5 + q2 := by
      rw [← hidx]
      exact hqidx
    have hpos1 : c / 5 = q1 := by omega
    have hpos2 : c % 5 = q2 := by omega
    have hreach_b : GridReach grid (s / 5, s % 5) (b / 5, b % 5) := ih hb25 hbnw
    obtain ⟨cb, hcb⟩ := WF5_getCell hwf hby hbx
    have hcbne : cb ≠ "#" := by
      intro hh
      rw [hh] at hcb
      exact hbnw hcb
    obtain ⟨cc, hcc⟩ := WF5_getCell hwf (show q1 < 5 by omega) (show q2 < 5 by omega)
    have hccne : cc ≠ "#" := by
      intro hh
      rw [hh] at hcc
      rw [hpos1, hpos2] at hcnw
      exact hcnw hcc
    have hstep' : GridStep grid (b / 5, b % 5) (q1, q2) :=
      ⟨⟨cb, hcb, hcbne⟩, ⟨cc, hcc, hccne⟩, hadj4⟩
    rw [hpos1, hpos2]
    exact Relation.ReflTransGen.tail hreach_b hstep'

end DijkstraPF

namespace DijkstraPF

/-- C5.  On every 5×5 grid whose unique start and goal cells are not connected
by any sequence of non-wall 4-directional neighbor steps, `PathFinder` returns
`-1` and leaves the grid unchanged (no path markers appear): the goal keeps the
sentinel distance, so its zero-initialised predecessor entry is untouched and
the marking walk does not run. -/
theorem c5_unreachable_not_found
    (grid : List (List Cat)) (hwf : WF5 grid)
    (ys xs yg xg : Nat) (hys : ys < 5) (hxs : xs < 5) (hyg : yg < 5) (hxg : xg < 5)
    (hs : getCell grid ys xs = some "s")
    (hg : getCell grid yg xg = some "g")
    (hsu : ∀ y, y < 5 → ∀ x, x < 5 → getCell grid y x = some "s" → y = ys ∧ x = xs)
    (hgu : ∀ y, y < 5 → ∀ x, x < 5 → getCell grid y x = some "g" → y = yg ∧ x = xg)
    (hunreach : ¬ GridReach grid (ys, xs) (yg, xg)) :
    ∃ G G', graphOfGrid grid = some G ∧ PathFinder G = some (G', -1) ∧
      G'.gridMatrix = grid := by
  obtain ⟨G, hG, hslen, halen, hdistv, hprevv, hgm, hadjchar, hsetchar, hstart, hgoal⟩ :=
    graphOfGrid_ok hwf
  have hstart' : G.start_node = ((ys * 5 + xs : Nat) : Int) := by
    rcases hstart with ⟨hno, _⟩ | ⟨y, x, hy, hx, hcell, heq⟩
    · exact absurd hs (hno ys xs hys hxs)
    · obtain ⟨h1, h2⟩ := hsu y hy x hx hcell
      rw [h1, h2] at heq
      exact heq
  have hgoal' : G.goal_node = ((yg * 5 + xg : Nat) : Int) := by
    rcases hgoal with ⟨hno, _⟩ | ⟨y, x, hy, hx, hcell, heq⟩
    · exact absurd hg (hno yg xg hyg hxg)
    · obtain ⟨h1, h2⟩ := hgu y hy x hx hcell
      rw [h1, h2] at heq
      exact heq
  have hadjOK : AdjOK G.adjecencyList := by
    refine ⟨halen, ?_⟩
    intro u l hgetl nd hnd
    have hu25 : u < 25 := by
      have := lt_of_get?_some hgetl
      omega
    have hnb : neighborsAt grid 5 (u / 5) (u % 5) = some l := by
      rw [← hadjchar u hu25]
      exact hgetl
    obtain ⟨l', hl', hprop⟩ := neighborsAt_wf hwf (show u / 5 < 5 by omega)
      (show u % 5 < 5 by omega)
    have hll : l' = l := by
      rw [hnb] at hl'
      exact (Option.some.inj hl').symm
    subst hll
    obtain ⟨_, q, hq1, hq2, hqidx, _⟩ := hprop nd hnd
    omega
  have hset' : ∀ i, i < 25 → ∃ c, G.set.get? i = some ⟨c, i⟩ := by
    intro i hi
    obtain ⟨c, _, hc⟩ := hsetchar i hi
    exact ⟨c, hc⟩
  obtain ⟨dist', prev', grid', res, hPF, hinv, ⟨p0, hp0, hp0grid⟩, ⟨dg, hdg, hres⟩⟩ :=
    pathFinder_char (s := ys * 5 + xs) (t := yg * 5 + xg) hwf hslen hset' hadjOK
      hstart' (by omega) hgoal' (by omega) (by rw [hdistv]; simp) hprevv hgm
  obtain ⟨_, _, hB, hR, hP0, _, _⟩ := hinv
  -- the goal's distance must still be the sentinel
  have hdg25 : dg = 25 := by
    by_contra hne
    have hdglt : dg < 25 := by
      have := hB _ _ hdg
      omega
    have hreach := hR _ _ hdg hdglt
    have hgdiv : (yg * 5 + xg) / 5 = yg := by omega
    have hgmod : (yg * 5 + xg) % 5 = xg := by omega
    have hsdiv : (ys * 5 + xs) / 5 = ys := by omega
    have hsmod : (ys * 5 + xs) % 5 = xs := by omega
    have hgr := codeReach_grid hwf halen hadjchar (yg * 5 + xg) hreach (by omega)
      (by rw [hgdiv, hgmod, hg]; simp)
    rw [hgdiv, hgmod, hsdiv, hsmod] at hgr
    exact hunreach hgr
  have hres1 : res = -1 := by
    rw [hres, hdg25]
    simp
  have hp00 : p0 = 0 := by
    have := hP0 _ _ hdg hdg25
    rw [hp0] at this
    exact Option.some.inj this
  refine ⟨G, { G with dist := dist', prev := prev', gridMatrix := grid' }, hG, ?_, ?_⟩
  · rw [hPF, hres1]
  · show grid' = grid
    exact hp0grid hp00

/-- In `c5grid`, no non-wall 4-directional path connects the start `(0,0)` to
the sealed-off goal corner `(4,4)` (positions are `(y, x)`). -/
theorem c5grid_unreachable : ¬ GridReach c5grid (0, 0) (4, 4) := by
  intro h
  rcases Relation.ReflTransGen.cases_tail h with heq | ⟨q, _, hstep⟩
  · exact absurd heq (by decide)
  · obtain ⟨hopenq, _, hadj⟩ := hstep
    obtain ⟨q1, q2⟩ := q
    unfold Adj4 at hadj
    simp only at hadj
    rcases hadj with ⟨h1, h2 | h2⟩ | ⟨h1, h2 | h2⟩
    · have e1 : q1 = 4 := by omega
      have e2 : q2 = 3 := by omega
      subst e1; subst e2
      exact absurd hopenq (by decide)
    · have e1 : q1 = 4 := by omega
      have e2 : q2 = 5 := by omega
      subst e1; subst e2
      exact absurd hopenq (by decide)
    · have e1 : q1 = 3 := by omega
      have e2 : q2 = 4 := by omega
      subst e1; subst e2
      exact absurd hopenq (by decide)
    · have e1 : q1 = 5 := by omega
      have e2 : q2 = 4 := by omega
      subst e1; subst e2
      exact absurd hopenq (by decide)

/-- Witness for C5 at the concrete grid `c5grid`. -/
theorem c5_unreachable_not_found_witness :
    ∃ G G', graphOfGrid c5grid = some G ∧ PathFinder G = some (G', -1) ∧
      G'.gridMatrix = c5grid :=
  c5_unreachable_not_found c5grid (by decide) 0 0 4 4 (by decide) (by decide)
    (by decide) (by decide) (by decide) (by decide) (by decide) (by decide)
    c5grid_unreachable

end DijkstraPF

namespace DijkstraPF

theorem getCell_blank {w h y x : Nat} :
    getCell (blankGrid w h) y x = if y < h ∧ x < w then some " " else none := by
  unfold getCell blankGrid
  rw [List.get?_eq_getElem?, List.getElem?_replicate]
  by_cases hy : y < h
  · rw [if_pos hy]
    simp only [Option.some_bind]
    rw [List.get?_eq_getElem?, List.getElem?_replicate]
    by_cases hx : x < w
    · rw [if_pos hx, if_pos ⟨hy, hx⟩]
    · rw [if_neg hx, if_neg (by tauto)]
  · rw [if_neg hy, if_neg (by tauto)]
    rfl

/-- A cell whose neighbor computation panics makes the whole `fillCell` step
panic, from any build state. -/
theorem fillCell_none {grid : List (List Cat)} {w h : Nat} {yx : Nat × Nat}
    (hn : neighborsAt grid h yx.1 yx.2 = none) (st : BuildState) :
    fillCell grid w h st yx = none := by
  unfold fillCell
  cases hc : getCell grid yx.1 yx.2 with
  | none => rfl
  | some c =>
    simp only [Option.bind_eq_bind, Option.some_bind]
    cases hsl : setL st.set (yx.1 * h + yx.2) ⟨c, yx.1 * h + yx.2⟩ with
    | none => rfl
    | some set' =>
      simp only [Option.some_bind]
      rw [hn]
      rfl

theorem mem_gridCells {w h y x : Nat} (hy : y < h) (hx : x < w) :
    (y, x) ∈ gridCells w h := by
  unfold gridCells
  rw [List.mem_flatMap]
  exact ⟨y, List.mem_range.mpr hy, List.mem_map.mpr ⟨x, List.mem_range.mpr hx, rfl⟩⟩

/-- On a one-column grid, every cell's computation reads `gridMatrix[y][1]`
(the hardcoded "right of node" probe of the `x == 0` branch): out of range. -/
theorem neighborsAt_blank_w1 {h y : Nat} (hy : y < h) :
    neighborsAt (blankGrid 1 h) h y 0 = none := by
  have hc1 : getCell (blankGrid 1 h) y (0 + 1) = none := by
    rw [getCell_blank]
    exact if_neg (by omega)
  unfold neighborsAt
  rw [getCell_blank, if_pos (show y < h ∧ 0 < 1 from ⟨hy, by omega⟩)]
  simp only [Option.bind_eq_bind, Option.some_bind, if_true, if_false]
  rw [probe_none hc1]
  rfl

/-- On a one-row grid of width at least 2, the top-left corner's "below node"
probe reads `gridMatrix[1][0]`: out of range. -/
theorem neighborsAt_blank_h1 {w : Nat} (hw : 2 ≤ w) :
    neighborsAt (blankGrid w 1) 1 0 0 = none := by
  have hc1 : getCell (blankGrid w 1) 0 (0 + 1) = some " " := by
    rw [getCell_blank]
    exact if_pos ⟨by omega, by omega⟩
  have hc2 : getCell (blankGrid w 1) (0 + 1) 0 = none := by
    rw [getCell_blank]
    exact if_neg (by omega)
  unfold neighborsAt
  rw [getCell_blank, if_pos (show (0:Nat) < 1 ∧ (0:Nat) < w from ⟨by omega, by omega⟩)]
  simp only [Option.bind_eq_bind, Option.some_bind, if_true, if_false]
  rw [probe_eq hc1]
  simp only [Option.some_bind, if_true, if_false]
  rw [probe_none hc2]
  rfl

/-- On a grid with at least two rows whose width is not 5 (and at least 2), the
top-row cell at `x = w - 1` lands in the top-edge branch (its `x` is neither 0
nor the hardcoded 4) and its "right of node" probe reads `gridMatrix[0][w]`:
out of range. -/
theorem neighborsAt_blank_topright {w h : Nat} (hw : 2 ≤ w) (hw5 : w ≠ 5) (hh : 2 ≤ h) :
    neighborsAt (blankGrid w h) h 0 (w - 1) = none := by
  have hc1 : getCell (blankGrid w h) (0 + 1) (w - 1) = some " " := by
    rw [getCell_blank]
    exact if_pos ⟨by omega, by omega⟩
  have hc2 : getCell (blankGrid w h) 0 (w - 1 - 1) = some " " := by
    rw [getCell_blank]
    exact if_pos ⟨by omega, by omega⟩
  have hc3 : getCell (blankGrid w h) 0 (w - 1 + 1) = none := by
    rw [getCell_blank]
    exact if_neg (by omega)
  unfold neighborsAt
  rw [getCell_blank, if_pos (show (0:Nat) < h ∧ w - 1 < w from ⟨by omega, by omega⟩)]
  simp only [Option.bind_eq_bind, Option.some_bind, if_true, if_false]
  rw [if_neg (show ¬(w - 1 = 0) from by omega)]
  rw [if_neg (show ¬(w - 1 = 4) from by omega)]
  rw [probe_eq hc1]
  simp only [Option.some_bind]
  rw [probe_eq hc2]
  simp only [Option.some_bind]
  rw [probe_none hc3]
  rfl

/-- On a width-5 grid with at least two rows but height not 5, the bottom-row
cell at `x = 1` lands in the interior branch (its `y` is neither 0 nor the
hardcoded 4) and its "below node" probe reads `gridMatrix[h][1]`: out of
range. -/
theorem neighborsAt_blank_bottom {h : Nat} (hh : 2 ≤ h) (hh5 : h ≠ 5) :
    neighborsAt (blankGrid 5 h) h (h - 1) 1 = none := by
  have hc1 : getCell (blankGrid 5 h) (h - 1 - 1) 1 = some " " := by
    rw [getCell_blank]
    exact if_pos ⟨by omega, by omega⟩
  have hc2 : getCell (blankGrid 5 h) (h - 1) (1 - 1) = some " " := by
    rw [getCell_blank]
    exact if_pos ⟨by omega, by omega⟩
  have hc3 : getCell (blankGrid 5 h) (h - 1) (1 + 1) = some " " := by
    rw [getCell_blank]
    exact if_pos ⟨by omega, by omega⟩
  have hc4 : getCell (blankGrid 5 h) (h - 1 + 1) 1 = none := by
    rw [getCell_blank]
    exact if_neg (by omega)
  unfold neighborsAt
  rw [getCell_blank, if_pos (show h - 1 < h ∧ (1:Nat) < 5 from ⟨by omega, by omega⟩)]
  simp only [Option.bind_eq_bind, Option.some_bind]
  rw [if_neg (show ¬((" ":Cat) = "#") from by decide)]
  rw [if_neg (show ¬((1:Nat) = 0) from by decide)]
  rw [if_neg (show ¬((1:Nat) = 4) from by decide)]
  rw [if_neg (show ¬(h - 1 = 0) from by omega)]
  rw [if_neg (show ¬(h - 1 = 4) from by omega)]
  rw [probe_eq hc1]
  simp only [Option.some_bind]
  rw [probe_eq hc2]
  simp only [Option.some_bind]
  rw [probe_eq hc3]
  simp only [Option.some_bind]
  rw [probe_none hc4]
  rfl

/-- Building a graph with positive dimensions other than 5×5 panics during the
initial rebuild: some cell's neighbor computation indexes out of range. -/
theorem newGraph_none {w h : Nat} (hw : 1 ≤ w) (hh : 1 ≤ h) (hne : ¬(w = 5 ∧ h = 5)) :
    NewGraph w h = none := by
  have hfail : ∃ yx ∈ gridCells w h,
      ∀ st, fillCell (blankGrid w h) w h st yx = none := by
    by_cases hw1 : w = 1
    · subst hw1
      exact ⟨(0, 0), mem_gridCells (by omega) (by omega),
        fun st => fillCell_none (neighborsAt_blank_w1 (by omega)) st⟩
    · have hw2 : 2 ≤ w := by omega
      by_cases hh1 : h = 1
      · subst hh1
        exact ⟨(0, 0), mem_gridCells (by omega) (by omega),
          fun st => fillCell_none (neighborsAt_blank_h1 hw2) st⟩
      · have hh2 : 2 ≤ h := by omega
        by_cases hw5 : w = 5
        · subst hw5
          have hh5 : h ≠ 5 := by tauto
          exact ⟨(h - 1, 1), mem_gridCells (by omega) (by omega),
            fun st => fillCell_none (neighborsAt_blank_bottom hh2 hh5) st⟩
        · exact ⟨(0, w - 1), mem_gridCells (by omega) (by omega),
            fun st => fillCell_none (neighborsAt_blank_topright hw2 hw5 hh2) st⟩
  obtain ⟨yx, hmem, hfailc⟩ := hfail
  unfold NewGraph NewGrid fillAdjecencyList
  simp only [Option.bind_eq_bind]
  rw [foldlM_option_none hmem hfailc]
  rfl

end DijkstraPF

namespace DijkstraPF

/-- C9 (amended).  (a) For every graph built on a well-formed 5×5 grid that
contains a start marker and a goal marker, the rebuild and the first
`PathFinder` invocation perform only in-bounds accesses and terminate (the
checked embedding returns `some`).  (b) For every graph created by `NewGraph`
with positive dimensions other than 5×5, the initial rebuild performs an
out-of-range access (with a zero dimension the loops touch nothing, so the
original "any other dimensions" claim fails there). -/
theorem c9_amended_inbounds :
    (∀ grid : List (List Cat), WF5 grid →
      (∃ ys xs, ys < 5 ∧ xs < 5 ∧ getCell grid ys xs = some "s") →
      (∃ yg xg, yg < 5 ∧ xg < 5 ∧ getCell grid yg xg = some "g") →
      ∃ G p, graphOfGrid grid = some G ∧ PathFinder G = some p) ∧
    (∀ w h : Nat, 1 ≤ w → 1 ≤ h → ¬(w = 5 ∧ h = 5) → NewGraph w h = none) := by
  constructor
  · rintro grid hwf ⟨ys, xs, hys, hxs, hs⟩ ⟨yg, xg, hyg, hxg, hg⟩
    obtain ⟨G, hG, hslen, halen, hdistv, hprevv, hgm, hadjchar, hsetchar, hstart, hgoal⟩ :=
      graphOfGrid_ok hwf
    have hadjOK : AdjOK G.adjecencyList := by
      refine ⟨halen, ?_⟩
      intro u l hgetl nd hnd
      have hu25 : u < 25 := by
        have := lt_of_get?_some hgetl
        omega
      have hnb : neighborsAt grid 5 (u / 5) (u % 5) = some l := by
        rw [← hadjchar u hu25]
        exact hgetl
      obtain ⟨l', hl', hprop⟩ := neighborsAt_wf hwf (show u / 5 < 5 by omega)
        (show u % 5 < 5 by omega)
      have hll : l' = l := by
        rw [hnb] at hl'
        exact (Option.some.inj hl').symm
      subst hll
      obtain ⟨_, q, hq1, hq2, hqidx, _⟩ := hprop nd hnd
      omega
    have hset' : ∀ i, i < 25 → ∃ c, G.set.get? i = some ⟨c, i⟩ := by
      intro i hi
      obtain ⟨c, _, hc⟩ := hsetchar i hi
      exact ⟨c, hc⟩
    rcases hstart with ⟨hno, _⟩ | ⟨y, x, hy, hx, _, heqs⟩
    · exact absurd hs (hno ys xs hys hxs)
    rcases hgoal with ⟨hno, _⟩ | ⟨y', x', hy', hx', _, heqg⟩
    · exact absurd hg (hno yg xg hyg hxg)
    obtain ⟨dist', prev', grid', res, hPF, _, _, _⟩ :=
      pathFinder_char (s := y * 5 + x) (t := y' * 5 + x') hwf hslen hset' hadjOK
        heqs (by omega) heqg (by omega) (by rw [hdistv]; simp) hprevv hgm
    exact ⟨G, _, hG, hPF⟩
  · intro w h hw hh hne
    exact newGraph_none hw hh hne

/-- Witness for C9 (amended), applying part (a) at the concrete grid
`grid5sg` and part (b) at the concrete dimensions 3×3. -/
theorem c9_amended_inbounds_witness :
    (∃ G p, graphOfGrid grid5sg = some G ∧ PathFinder G = some p) ∧
    NewGraph 3 3 = none :=
  ⟨c9_amended_inbounds.1 grid5sg (by decide)
      ⟨0, 0, by omega, by omega, by decide⟩ ⟨2, 2, by omega, by omega, by decide⟩,
   c9_amended_inbounds.2 3 3 (by omega) (by omega) (by simp)⟩

end DijkstraPF
